import Mathlib

/-!
Shallow embedding of the `scrible-it-together` collaboration backend.

The embedded parts are:
* the JS `Map`/`Set` containers used by the server, as association lists;
* `ConnectionManager` (`src/backend/src/websocket/connection-manager.ts`);
* `YjsDocumentManager` (`src/backend/src/yjs/document-manager.ts`), with the
  Yjs CRDT itself treated as opaque byte state, and the Prisma tables it
  touches (`Room`, `RoomParticipant`, `RoomSnapshot`) as in-memory lists;
* `MessageHandler` (`src/backend/src/websocket/message-handler.ts`), whose
  handlers become pure functions from a server state to a new server state
  plus the list of frames written to client sockets.
-/

namespace Scrible

/-- JS `Map.set`: replace the first binding of the key in place, or append a
fresh binding at the end (JS `Map` iterates in insertion order). -/
def mset {α : Type} : List (String × α) → String → α → List (String × α)
  | [], k, v => [(k, v)]
  | (k', v') :: rest, k, v =>
      if k' = k then (k, v) :: rest else (k', v') :: mset rest k v

/-- JS `Map.get`: first binding of the key, if any. -/
def mget {α : Type} : List (String × α) → String → Option α
  | [], _ => none
  | (k', v') :: rest, k => if k' = k then some v' else mget rest k

/-- JS `Map.delete`: remove the bindings of the key. -/
def mdel {α : Type} : List (String × α) → String → List (String × α)
  | [], _ => []
  | (k', v') :: rest, k =>
      if k' = k then mdel rest k else (k', v') :: mdel rest k

/-- JS `Set.add`: append the element unless it is already present. -/
def sadd (s : List String) (x : String) : List String :=
  if x ∈ s then s else s ++ [x]

/-- JS `Set.delete`: remove the element. -/
def serase : List String → String → List String
  | [], _ => []
  | y :: rest, x => if y = x then serase rest x else y :: serase rest x

/-! Base64, as used by `Buffer.from(s, 'base64')` and
`Buffer.prototype.toString('base64')`.  Node's decoder ignores characters
outside the base64 alphabet (including the `=` padding). -/

/-- Value of one base64 alphabet character, `none` for everything else. -/
def b64val (c : Char) : Option Nat :=
  if 'A' ≤ c ∧ c ≤ 'Z' then some (c.toNat - 65)
  else if 'a' ≤ c ∧ c ≤ 'z' then some (c.toNat - 97 + 26)
  else if '0' ≤ c ∧ c ≤ '9' then some (c.toNat - 48 + 52)
  else if c = '+' then some 62
  else if c = '/' then some 63
  else none

/-- Decode a stream of 6-bit values into bytes, 4 values to 3 bytes, with the
usual truncated final group. -/
def b64unpack : List Nat → List Nat
  | a :: b :: c :: d :: rest =>
      (a * 4 + b / 16) :: ((b % 16) * 16 + c / 4) :: ((c % 4) * 64 + d) ::
        b64unpack rest
  | [a, b] => [a * 4 + b / 16]
  | [a, b, c] => [a * 4 + b / 16, (b % 16) * 16 + c / 4]
  | _ => []

/-- `Buffer.from(s, 'base64')`, as a list of byte values. -/
def b64decode (s : String) : List Nat :=
  b64unpack (s.toList.filterMap b64val)

/-- Character of a 6-bit value. -/
def b64char (n : Nat) : Char :=
  "ABCDEFGHIJKLMNOPQRSTUVWXYZabcdefghijklmnopqrstuvwxyz0123456789+/".toList.getD n 'A'

/-- Encode bytes to base64 characters, 3 bytes to 4 characters, padded
with `=`. -/
def b64pack : List Nat → List Char
  | x :: y :: z :: rest =>
      b64char (x / 4) :: b64char ((x % 4) * 16 + y / 16) ::
        b64char ((y % 16) * 4 + z / 64) :: b64char (z % 64) :: b64pack rest
  | [x, y] => [b64char (x / 4), b64char ((x % 4) * 16 + y / 16),
      b64char ((y % 16) * 4), '=']
  | [x] => [b64char (x / 4), b64char ((x % 4) * 16), '=', '=']
  | [] => []

/-- `Buffer.prototype.toString('base64')`. -/
def b64encode (bytes : List Nat) : String := String.mk (b64pack bytes)

/-! Protocol data types, from `src/backend/src/types.ts`. -/

structure User where
  id : String
  name : String
  color : String
deriving Repr, DecidableEq

/-- Participant entry of a `sync-response`, synthesized by
`ConnectionManager.getRoomParticipants`. -/
structure Participant where
  userId : String
  clientId : String
  user : User
  role : String
  joinedAt : Nat
deriving Repr, DecidableEq

/-- Cursor / viewport coordinates (numeric contents are irrelevant to the
hub, which only relays them). -/
structure Point where
  x : Int
  y : Int
deriving Repr, DecidableEq

structure Viewport where
  x : Int
  y : Int
  zoom : Int
deriving Repr, DecidableEq

/-- Inbound tagged union `ClientMessage`. -/
inductive ClientMessage where
  | connect (roomId : String) (user : User) (token : Option String)
  | update (delta : String)
  | presence (clientId : String) (cursor : Option Point)
      (selection : Option (List String)) (viewport : Option Viewport)
  | chat (userName : String) (message : String) (timestamp : Nat)
  | heartbeat (timestamp : Nat)
  | leave
deriving Repr, DecidableEq

/-- Outbound tagged union `ServerMessage` (plus the ad-hoc `heartbeat` and
`chat` frames the handler emits through `as any`). -/
inductive ServerMessage where
  | join (user : User) (clientId : String) (roomId : String)
  | leave (clientId : String) (userId : String)
  | syncResponse (snapshotData : String) (participants : List Participant)
  | update (delta : String) (fromId : String)
  | presence (clientId : String) (cursor : Option Point)
      (selection : Option (List String)) (viewport : Option Viewport)
  | chat (userName : String) (message : String) (timestamp : Nat)
      (clientId : String)
  | heartbeat (timestamp : Nat)
  | error (code : String) (message : String)
deriving Repr, DecidableEq

/-- What `JSON.parse` plus the `switch` on `message.type` can see of one
inbound websocket text payload: a parse failure, a frame whose `type` matches
a known variant, or a well-formed JSON object with an unknown `type`. -/
inductive Frame where
  | malformed
  | known (m : ClientMessage)
  | unknownType (t : String)
deriving Repr, DecidableEq

/-! ConnectionManager, from `src/backend/src/websocket/connection-manager.ts`
(the registry: primary index `connections : clientId -> ClientConnection`,
secondary index `roomClients : roomId -> Set<clientId>`). -/

structure ClientConnection where
  wsOpen : Bool
  roomId : String
  user : User
  joinedAt : Nat
deriving Repr, DecidableEq

structure ConnectionManager where
  connections : List (String × ClientConnection)
  roomClients : List (String × List String)
deriving Repr, DecidableEq

def ConnectionManager.empty : ConnectionManager := ⟨[], []⟩

/-- `addConnection`: set the primary entry, then add the client to the
room's bucket, creating the bucket first when absent. -/
def ConnectionManager.addConnection (cm : ConnectionManager) (clientId : String)
    (wsOpen : Bool) (roomId : String) (user : User) (now : Nat) :
    ConnectionManager :=
  { connections := mset cm.connections clientId ⟨wsOpen, roomId, user, now⟩,
    roomClients :=
      mset cm.roomClients roomId
        (sadd ((mget cm.roomClients roomId).getD []) clientId) }

/-- `removeConnection`: `null` when the client is unknown; otherwise drop it
from its room's bucket (deleting the bucket when it becomes empty) and from
the primary index, returning the room and user. -/
def ConnectionManager.removeConnection (cm : ConnectionManager)
    (clientId : String) : Option (String × User) × ConnectionManager :=
  match mget cm.connections clientId with
  | none => (none, cm)
  | some conn =>
      let rc :=
        match mget cm.roomClients conn.roomId with
        | none => cm.roomClients
        | some roomSet =>
            let s := serase roomSet clientId
            if s = [] then mdel cm.roomClients conn.roomId
            else mset cm.roomClients conn.roomId s
      (some (conn.roomId, conn.user),
        { connections := mdel cm.connections clientId, roomClients := rc })

def ConnectionManager.getRoomId (cm : ConnectionManager) (clientId : String) :
    Option String :=
  (mget cm.connections clientId).map (fun c => c.roomId)

def ConnectionManager.getUser (cm : ConnectionManager) (clientId : String) :
    Option User :=
  (mget cm.connections clientId).map (fun c => c.user)

def ConnectionManager.getRoomClientCount (cm : ConnectionManager)
    (roomId : String) : Nat :=
  ((mget cm.roomClients roomId).getD []).length

def ConnectionManager.isRoomEmpty (cm : ConnectionManager) (roomId : String) :
    Bool :=
  cm.getRoomClientCount roomId == 0

/-- `getRoomParticipants`: walk the room's bucket, resolving each client
through the primary index. -/
def ConnectionManager.getRoomParticipants (cm : ConnectionManager)
    (roomId : String) : List Participant :=
  ((mget cm.roomClients roomId).getD []).filterMap fun cid =>
    (mget cm.connections cid).map fun conn =>
      { userId := conn.user.id, clientId := cid, user := conn.user,
        role := "editor", joinedAt := conn.joinedAt }

/-- `broadcastToRoom`: send `msg` to every member of the room's bucket other
than `exclude` whose socket is registered and open.  The result is the list
of `(clientId, frame)` socket writes, in bucket order. -/
def ConnectionManager.broadcastToRoom (cm : ConnectionManager)
    (roomId : String) (msg : ServerMessage) (exclude : Option String) :
    List (String × ServerMessage) :=
  match mget cm.roomClients roomId with
  | none => []
  | some clientIds =>
      clientIds.filterMap fun cid =>
        if exclude = some cid then none
        else
          match mget cm.connections cid with
          | some conn => if conn.wsOpen then some (cid, msg) else none
          | none => none

/-- `sendToClient`: one socket write when the client is registered with an
open socket, none otherwise. -/
def ConnectionManager.sendToClient (cm : ConnectionManager) (clientId : String)
    (msg : ServerMessage) : List (String × ServerMessage) :=
  match mget cm.connections clientId with
  | some conn => if conn.wsOpen then [(clientId, msg)] else []
  | none => []

/-! Yjs.  The hub treats CRDT state as opaque: it only ever calls
`Y.applyUpdate`, `Y.encodeStateAsUpdate` and `Y.encodeStateVector`.  We model
a `Y.Doc` by the bytes of the updates merged into it, which is faithful to
everything the hub observes of it. -/

/-- Opaque CRDT document state. -/
abbrev YDoc := List Nat

namespace Y

def newDoc : YDoc := []

/-- `Y.applyUpdate doc u`: merge the update bytes into the document. -/
def applyUpdate (doc : YDoc) (update : List Nat) : YDoc := doc ++ update

/-- `Y.encodeStateAsUpdate doc`: full state as one update. -/
def encodeStateAsUpdate (doc : YDoc) : List Nat := doc

/-- `Y.encodeStateVector doc` (opaque summary; its contents never matter to
the hub). -/
def encodeStateVector (doc : YDoc) : List Nat := [doc.length]

end Y

/-! Prisma store: the three tables the handlers touch
(`room`, `roomParticipant`, `roomSnapshot`). -/

structure Room where
  id : String
  name : String
  creatorId : String
  lastActive : Nat
deriving Repr, DecidableEq

structure ParticipantRow where
  roomId : String
  userId : String
  clientId : String
  userName : String
  userColor : String
  role : String
  joinedAt : Nat
  leftAt : Option Nat
deriving Repr, DecidableEq

structure SnapshotRow where
  id : Nat
  roomId : String
  snapshotData : List Nat
  stateVector : List Nat
  version : Nat
deriving Repr, DecidableEq

structure Db where
  rooms : List Room
  participants : List ParticipantRow
  snapshots : List SnapshotRow
  nextSnapshotId : Nat
deriving Repr, DecidableEq

def Db.empty : Db := ⟨[], [], [], 0⟩

/-- `prisma.room.findUnique({ where: { id } })`. -/
def Db.findRoom (db : Db) (roomId : String) : Option Room :=
  db.rooms.find? fun r => r.id == roomId

/-- `prisma.room.create` as issued by `handleConnect` (name
`Room <roomId>`, `lastActive` defaulted to now). -/
def Db.createRoom (db : Db) (roomId : String) (creatorId : String) (now : Nat) :
    Db :=
  { db with rooms := db.rooms ++ [⟨roomId, "Room " ++ roomId, creatorId, now⟩] }

/-- `prisma.room.update({ where: { id }, data: { lastActive } })`. -/
def Db.touchRoom (db : Db) (roomId : String) (now : Nat) : Db :=
  { db with rooms := db.rooms.map fun r =>
      if r.id = roomId then { r with lastActive := now } else r }

/-- `prisma.roomParticipant.create` as issued by `handleConnect`
(role `editor`, `leftAt` defaulted to null). -/
def Db.createParticipant (db : Db) (roomId : String) (user : User)
    (clientId : String) (now : Nat) : Db :=
  { db with participants := db.participants ++
      [⟨roomId, user.id, clientId, user.name, user.color, "editor", now, none⟩] }

/-- `prisma.roomParticipant.updateMany({ where: { clientId, leftAt: null },
data: { leftAt: now } })`. -/
def Db.recordLeave (db : Db) (clientId : String) (now : Nat) : Db :=
  { db with participants := db.participants.map fun r =>
      if r.clientId = clientId ∧ r.leftAt = none then { r with leftAt := some now }
      else r }

/-- Snapshot ordering used by `orderBy: { version: 'desc' }`. -/
def versionGe (a b : SnapshotRow) : Prop := b.version ≤ a.version

instance : DecidableRel versionGe := fun a b => Nat.decLe b.version a.version

instance : IsTotal SnapshotRow versionGe :=
  ⟨fun a b => Nat.le_total b.version a.version⟩

instance : IsTrans SnapshotRow versionGe :=
  ⟨fun _ _ _ hab hbc => Nat.le_trans hbc hab⟩

/-- The snapshot rows of one room, in table order. -/
def Db.roomSnapshots (db : Db) (roomId : String) : List SnapshotRow :=
  db.snapshots.filter fun s => s.roomId == roomId

/-- A room's snapshot rows sorted by `version` descending. -/
def Db.snapshotsByVersionDesc (db : Db) (roomId : String) : List SnapshotRow :=
  List.insertionSort versionGe (db.roomSnapshots roomId)

/-- `prisma.roomSnapshot.findFirst({ where: { roomId },
orderBy: { version: 'desc' } })`. -/
def Db.newestSnapshot (db : Db) (roomId : String) : Option SnapshotRow :=
  (db.snapshotsByVersionDesc roomId).head?

/-! YjsDocumentManager, from `src/backend/src/yjs/document-manager.ts`.
`saveTimers` holds the rooms whose periodic snapshot interval is installed. -/

structure YjsManager where
  documents : List (String × YDoc)
  saveTimers : List String
deriving Repr, DecidableEq

def YjsManager.empty : YjsManager := ⟨[], []⟩

/-- `getOrCreateDocument`: return the cached document, or create an empty
one, seed it by applying the newest persisted snapshot when one exists,
cache it and install the periodic save timer. -/
def YjsManager.getOrCreateDocument (ym : YjsManager) (roomId : String)
    (db : Db) : YjsManager :=
  match mget ym.documents roomId with
  | some _ => ym
  | none =>
      let doc :=
        match db.newestSnapshot roomId with
        | some snap => Y.applyUpdate Y.newDoc snap.snapshotData
        | none => Y.newDoc
      { documents := mset ym.documents roomId doc,
        saveTimers := sadd ym.saveTimers roomId }

/-- `applyUpdate`: merge the bytes into the room's document when it is
cached; otherwise do nothing (the source returns `false`). -/
def YjsManager.applyUpdate (ym : YjsManager) (roomId : String)
    (update : List Nat) : YjsManager :=
  match mget ym.documents roomId with
  | some doc =>
      { ym with documents := mset ym.documents roomId (Y.applyUpdate doc update) }
  | none => ym

/-- `getStateAsUpdate`: full state of the cached document, if any. -/
def YjsManager.getStateAsUpdate (ym : YjsManager) (roomId : String) :
    Option (List Nat) :=
  (mget ym.documents roomId).map Y.encodeStateAsUpdate

/-- `saveSnapshot` (no explicit `doc` argument, as the handlers call it):
no-op when the room has no cached document; otherwise insert a new snapshot
row with version `(newest?.version || 0) + 1`, then delete every row of the
room beyond the 10 newest by version. -/
def YjsManager.saveSnapshot (ym : YjsManager) (roomId : String) (db : Db) :
    Db :=
  match mget ym.documents roomId with
  | none => db
  | some doc =>
      let row : SnapshotRow :=
        ⟨db.nextSnapshotId, roomId, Y.encodeStateAsUpdate doc,
          Y.encodeStateVector doc,
          ((db.newestSnapshot roomId).map (fun s => s.version)).getD 0 + 1⟩
      let db1 : Db :=
        { db with
          snapshots := db.snapshots ++ [row],
          nextSnapshotId := db.nextSnapshotId + 1 }
      let old := (db1.snapshotsByVersionDesc roomId).drop 10
      if old = [] then db1
      else
        { db1 with
          snapshots := db1.snapshots.filter fun r =>
            decide (r.id ∉ old.map (fun s => s.id)) }

/-- `destroyDocument` (defined in the source, but never invoked by any
handler: the call site in `handleDisconnect` is commented out): save a final
snapshot, clear the periodic save timer, drop the cached document. -/
def YjsManager.destroyDocument (ym : YjsManager) (roomId : String) (db : Db) :
    YjsManager × Db :=
  match mget ym.documents roomId with
  | none => (ym, db)
  | some _ =>
      let db1 := ym.saveSnapshot roomId db
      ({ documents := mdel ym.documents roomId,
         saveTimers := serase ym.saveTimers roomId }, db1)

/-! MessageHandler, from `src/backend/src/websocket/message-handler.ts`.
Each handler is a pure function from the server state to the new server
state and the list of `(clientId, frame)` socket writes it performs, in
order.  `pendingDestroys` models rooms with a registered delayed
document-destroy timer; the `setTimeout` that would register one in
`handleDisconnect` is commented out in the source, so no handler ever adds
to it. -/

structure ServerState where
  cm : ConnectionManager
  ym : YjsManager
  db : Db
  pendingDestroys : List String
deriving Repr, DecidableEq

def ServerState.empty : ServerState :=
  ⟨ConnectionManager.empty, YjsManager.empty, Db.empty, []⟩

abbrev Sends := List (String × ServerMessage)

/-- `handleConnect`: find or auto-create the room, touch `lastActive`,
register the connection, insert a participant row, get or create and seed
the document, send `sync-response` with the current full state and the
participant list to the caller, broadcast `join` to the rest of the room. -/
def handleConnect (clientId : String) (wsOpen : Bool) (roomId : String)
    (user : User) (now : Nat) (st : ServerState) : ServerState × Sends :=
  let db1 :=
    match st.db.findRoom roomId with
    | some _ => st.db
    | none => st.db.createRoom roomId user.id now
  let db2 := db1.touchRoom roomId now
  let cm1 := st.cm.addConnection clientId wsOpen roomId user now
  let db3 := db2.createParticipant roomId user clientId now
  let ym1 := st.ym.getOrCreateDocument roomId db3
  let syncSends :=
    match ym1.getStateAsUpdate roomId with
    | some state =>
        cm1.sendToClient clientId
          (ServerMessage.syncResponse (b64encode state)
            (cm1.getRoomParticipants roomId))
    | none => []
  let joinSends :=
    cm1.broadcastToRoom roomId (ServerMessage.join user clientId roomId)
      (some clientId)
  ({ st with cm := cm1, ym := ym1, db := db3 }, syncSends ++ joinSends)

/-- `handleUpdate`: silently return when the sender has no registered room;
otherwise base64-decode `delta`, apply it to the room's document, broadcast
`update {delta, from}` to the rest of the room. -/
def handleUpdate (clientId : String) (delta : String) (st : ServerState) :
    ServerState × Sends :=
  match st.cm.getRoomId clientId with
  | none => (st, [])
  | some roomId =>
      let ym1 := st.ym.applyUpdate roomId (b64decode delta)
      let sends :=
        st.cm.broadcastToRoom roomId (ServerMessage.update delta clientId)
          (some clientId)
      ({ st with ym := ym1 }, sends)

/-- `handlePresence`: silently return when the sender has no registered
room; otherwise broadcast the presence to the rest of the room. -/
def handlePresence (clientId : String) (cursor : Option Point)
    (selection : Option (List String)) (viewport : Option Viewport)
    (st : ServerState) : ServerState × Sends :=
  match st.cm.getRoomId clientId with
  | none => (st, [])
  | some roomId =>
      (st,
        st.cm.broadcastToRoom roomId
          (ServerMessage.presence clientId cursor selection viewport)
          (some clientId))

/-- `handleChat`: broadcast to the whole room, the sender included. -/
def handleChat (clientId : String) (userName : String) (message : String)
    (timestamp : Nat) (st : ServerState) : ServerState × Sends :=
  match st.cm.getRoomId clientId with
  | none => (st, [])
  | some roomId =>
      (st,
        st.cm.broadcastToRoom roomId
          (ServerMessage.chat userName message timestamp clientId) none)

/-- `handleDisconnect`: remove the connection (complete no-op when the
client is unknown), close the open participant rows, broadcast `leave` to
the room, and when the room's bucket is now empty save a final snapshot.
The delayed `destroyDocument` call is commented out in the source, so the
document is neither destroyed nor scheduled for destruction. -/
def handleDisconnect (clientId : String) (now : Nat) (st : ServerState) :
    ServerState × Sends :=
  match st.cm.removeConnection clientId with
  | (none, _) => (st, [])
  | (some (roomId, user), cm1) =>
      let db1 := st.db.recordLeave clientId now
      let sends :=
        cm1.broadcastToRoom roomId (ServerMessage.leave clientId user.id) none
      if cm1.isRoomEmpty roomId then
        ({ st with cm := cm1, db := st.ym.saveSnapshot roomId db1 }, sends)
      else
        ({ st with cm := cm1, db := db1 }, sends)

/-- `handleMessage`: dispatch on the parsed frame's `type`.  A frame that
fails to parse lands in the `catch` block, which sends one
`INVALID_MESSAGE` error back; a frame whose `type` matches no `case` falls
through the `switch` and nothing at all happens. -/
def handleMessage (clientId : String) (frame : Frame) (now : Nat)
    (st : ServerState) : ServerState × Sends :=
  match frame with
  | Frame.malformed =>
      (st, st.cm.sendToClient clientId
        (ServerMessage.error "INVALID_MESSAGE" "Failed to process message"))
  | Frame.unknownType _ => (st, [])
  | Frame.known m =>
      match m with
      | ClientMessage.connect roomId user _ =>
          handleConnect clientId true roomId user now st
      | ClientMessage.update delta => handleUpdate clientId delta st
      | ClientMessage.presence _ cursor selection viewport =>
          handlePresence clientId cursor selection viewport st
      | ClientMessage.chat userName message timestamp =>
          handleChat clientId userName message timestamp st
      | ClientMessage.heartbeat _ =>
          (st, st.cm.sendToClient clientId (ServerMessage.heartbeat now))
      | ClientMessage.leave => handleDisconnect clientId now st

/-! Helper notions and lemmas. -/

/-- The room's bucket in the secondary index (`roomClients`), empty when the
room has no bucket. -/
def bucketOf (cm : ConnectionManager) (roomId : String) : List String :=
  (mget cm.roomClients roomId).getD []

/-- Example users (the spec's scenario S1). -/
def userA : User := ⟨"u1", "A", "#f00"⟩

def userB : User := ⟨"u2", "B", "#0f0"⟩

/-- State after A has connected to room `R1`. -/
def stA : ServerState := (handleConnect "cA" true "R1" userA 0 ServerState.empty).1

/-- State after A and then B have connected to room `R1`. -/
def stAB : ServerState := (handleConnect "cB" true "R1" userB 1 stA).1

/-- Agreement of the registry's two indexes: a clientId sits in room `R`'s
bucket exactly when its primary entry names room `R`. -/
def RegistryAgrees (cm : ConnectionManager) : Prop :=
  ∀ roomId cid, cid ∈ bucketOf cm roomId ↔
    ∃ c, mget cm.connections cid = some c ∧ c.roomId = roomId

/-- No empty bucket is retained in the secondary index. -/
def NoEmptyBucket (cm : ConnectionManager) : Prop :=
  ∀ roomId, mget cm.roomClients roomId ≠ some []

/-- Registry states reachable from empty by `addConnection` and
`removeConnection`, where every `addConnection` is for a clientId that is
not currently registered (the only way the handler produces adds for fresh
sessions). -/
inductive RegReach : ConnectionManager → Prop where
  | init : RegReach ConnectionManager.empty
  | add (cm : ConnectionManager) (clientId : String) (wsOpen : Bool)
      (roomId : String) (user : User) (now : Nat) (h : RegReach cm)
      (hfresh : mget cm.connections clientId = none) :
      RegReach (cm.addConnection clientId wsOpen roomId user now)
  | remove (cm : ConnectionManager) (clientId : String) (h : RegReach cm) :
      RegReach (cm.removeConnection clientId).2

/-- The document `getOrCreateDocument` builds on a cache miss: an empty
document, with the newest persisted snapshot applied when one exists. -/
def seedDoc : Option SnapshotRow → YDoc
  | some snap => Y.applyUpdate Y.newDoc snap.snapshotData
  | none => Y.newDoc

/-- The snapshot row `saveSnapshot` inserts: server-assigned version
`(newest?.version || 0) + 1`, payload and state vector of the current
document. -/
def savedRow (db : Db) (roomId : String) (doc : YDoc) : SnapshotRow :=
  ⟨db.nextSnapshotId, roomId, Y.encodeStateAsUpdate doc,
    Y.encodeStateVector doc,
    ((db.newestSnapshot roomId).map (fun s => s.version)).getD 0 + 1⟩

/-- The database state after `saveSnapshot`'s insert, before its prune. -/
def dbAfterInsert (db : Db) (roomId : String) (doc : YDoc) : Db :=
  { db with
    snapshots := db.snapshots ++ [savedRow db roomId doc],
    nextSnapshotId := db.nextSnapshotId + 1 }

/-- Example document manager and snapshot table for the C4 witness: room
`R` holds a cached document and two persisted snapshots (versions 1, 2). -/
def ymEx : YjsManager := ⟨[("R", [1, 2])], ["R"]⟩

def dbEx : Db :=
  ⟨[], [], [⟨0, "R", [7], [1], 1⟩, ⟨1, "R", [7, 8], [2], 2⟩], 2⟩

/-! Theorems. -/

theorem mget_mset_self {α : Type} (m : List (String × α)) (k : String) (v : α) :
    mget (mset m k v) k = some v := by
  induction m with
  | nil => simp [mset, mget]
  | cons p rest ih =>
    obtain ⟨k', v'⟩ := p
    by_cases h : k' = k
    · simp [mset, mget, h]
    · simp [mset, mget, h, ih]

theorem mget_mset_ne {α : Type} (m : List (String × α)) (k k' : String) (v : α)
    (h : k' ≠ k) : mget (mset m k v) k' = mget m k' := by
  have hk : k ≠ k' := Ne.symm h
  induction m with
  | nil => simp [mset, mget, hk]
  | cons p rest ih =>
    obtain ⟨k₀, v₀⟩ := p
    by_cases h0 : k₀ = k
    · subst h0
      simp [mset, mget, hk]
    · simp [mset, mget, h0, ih]

theorem mget_mdel_self {α : Type} (m : List (String × α)) (k : String) :
    mget (mdel m k) k = none := by
  induction m with
  | nil => simp [mdel, mget]
  | cons p rest ih =>
    obtain ⟨k', v'⟩ := p
    by_cases h : k' = k
    · simp [mdel, h, ih]
    · simp [mdel, mget, h, ih]

theorem mget_mdel_ne {α : Type} (m : List (String × α)) (k k' : String)
    (h : k' ≠ k) : mget (mdel m k) k' = mget m k' := by
  have hk : k ≠ k' := Ne.symm h
  induction m with
  | nil => simp [mdel]
  | cons p rest ih =>
    obtain ⟨k₀, v₀⟩ := p
    by_cases h0 : k₀ = k
    · subst h0
      simp [mdel, mget, hk, ih]
    · simp [mdel, mget, h0, ih]

theorem mem_sadd (s : List String) (x y : String) :
    y ∈ sadd s x ↔ y = x ∨ y ∈ s := by
  unfold sadd
  by_cases h : x ∈ s
  · simp only [if_pos h]
    constructor
    · exact Or.inr
    · rintro (rfl | hy)
      · exact h
      · exact hy
  · simp [if_neg h, List.mem_append]
    tauto

theorem mem_serase (s : List String) (x y : String) :
    y ∈ serase s x ↔ y ∈ s ∧ y ≠ x := by
  induction s with
  | nil => simp [serase]
  | cons z rest ih =>
    by_cases h : z = x
    · subst h
      simp only [serase, if_pos rfl, ih, List.mem_cons]
      tauto
    · simp only [serase, if_neg h, List.mem_cons, ih]
      constructor
      · rintro (rfl | ⟨hy, hne⟩)
        · exact ⟨Or.inl rfl, h⟩
        · exact ⟨Or.inr hy, hne⟩
      · rintro ⟨rfl | hy, hne⟩
        · exact Or.inl rfl
        · exact Or.inr ⟨hy, hne⟩

theorem sadd_ne_nil (s : List String) (x : String) : sadd s x ≠ [] := by
  unfold sadd
  by_cases h : x ∈ s
  · simp only [if_pos h]
    rintro rfl
    simp at h
  · simp [if_neg h]

/-- Characterization of the fan-out: a frame write `(cid, m)` is produced by
`broadcastToRoom` exactly when `m` is the broadcast frame and `cid` is a
member of the room's bucket, distinct from the excluded client, registered
with an open socket. -/
theorem mem_broadcastToRoom (cm : ConnectionManager) (roomId : String)
    (msg : ServerMessage) (exclude : Option String) (cid : String)
    (m : ServerMessage) :
    (cid, m) ∈ cm.broadcastToRoom roomId msg exclude ↔
      m = msg ∧ cid ∈ bucketOf cm roomId ∧ exclude ≠ some cid ∧
        ∃ conn, mget cm.connections cid = some conn ∧ conn.wsOpen = true := by
  unfold ConnectionManager.broadcastToRoom bucketOf
  cases hb : mget cm.roomClients roomId with
  | none => simp
  | some ids =>
    simp only [Option.getD_some, List.mem_filterMap]
    constructor
    · rintro ⟨a, ha, hf⟩
      by_cases hex : exclude = some a
      · simp [hex] at hf
      · cases hc : mget cm.connections a with
        | none => simp [hex, hc] at hf
        | some conn =>
          by_cases hw : conn.wsOpen = true
          · simp only [if_neg hex, hc, hw, if_pos] at hf
            obtain ⟨rfl, rfl⟩ := Prod.mk.inj (Option.some.inj hf)
            exact ⟨rfl, ha, hex, conn, hc, hw⟩
          · simp [hex, hc, hw] at hf
    · rintro ⟨rfl, hmem, hex, conn, hc, hw⟩
      exact ⟨cid, hmem, by simp [hex, hc, hw]⟩

/-- `sendToClient` to a registered open client is one frame write. -/
theorem sendToClient_open (cm : ConnectionManager) (clientId : String)
    (msg : ServerMessage) (conn : ClientConnection)
    (h : mget cm.connections clientId = some conn) (hw : conn.wsOpen = true) :
    cm.sendToClient clientId msg = [(clientId, msg)] := by
  simp [ConnectionManager.sendToClient, h, hw]

/-- `removeConnection` of an unregistered client returns `null` and changes
nothing. -/
theorem removeConnection_of_mget_none (cm : ConnectionManager)
    (clientId : String) (h : mget cm.connections clientId = none) :
    cm.removeConnection clientId = (none, cm) := by
  unfold ConnectionManager.removeConnection
  rw [h]

/-! Claim theorems. -/

/-- C10: invoking the disconnect handler for a clientId with no registered
connection is a complete no-op: the whole server state (participant table,
registry indexes, documents, snapshots) is unchanged and no frame is sent
to anyone. -/
theorem C10_disconnect_unknown_noop (clientId : String) (now : Nat)
    (st : ServerState) (h : mget st.cm.connections clientId = none) :
    handleDisconnect clientId now st = (st, []) := by
  unfold handleDisconnect ConnectionManager.removeConnection
  rw [h]

/-- C10 witness: the handler at a concrete unregistered client. -/
theorem C10_witness :
    handleDisconnect "nobody" 7 stAB = (stAB, []) :=
  C10_disconnect_unknown_noop "nobody" 7 stAB (by decide)

/-- C9: detach and record-leave are idempotent.  After a successful
`removeConnection`, a second one returns `null` and leaves both registry
indexes unchanged; repeating `recordLeave` changes no participant row, and
after the first call no open row for that clientId remains. -/
theorem C9_detach_record_leave_idempotent (cm : ConnectionManager)
    (clientId : String) (db : Db) (t1 t2 : Nat) (ru : String × User)
    (h : (cm.removeConnection clientId).1 = some ru) :
    ((cm.removeConnection clientId).2.removeConnection clientId
        = (none, (cm.removeConnection clientId).2))
      ∧ Db.recordLeave (Db.recordLeave db clientId t1) clientId t2
          = Db.recordLeave db clientId t1
      ∧ ∀ r ∈ (Db.recordLeave db clientId t1).participants,
          r.clientId = clientId → r.leftAt ≠ none := by
  refine ⟨?_, ?_, ?_⟩
  · cases hc : mget cm.connections clientId with
    | none => simp [ConnectionManager.removeConnection, hc] at h
    | some conn =>
      have h2 : (cm.removeConnection clientId).2.connections
          = mdel cm.connections clientId := by
        unfold ConnectionManager.removeConnection
        rw [hc]
      exact removeConnection_of_mget_none _ _ (by rw [h2, mget_mdel_self])
  · unfold Db.recordLeave
    simp only [List.map_map]
    congr 1
    apply List.map_congr_left
    intro r _
    by_cases hr : r.clientId = clientId ∧ r.leftAt = none
    · simp only [Function.comp_apply, if_pos hr]
      have : ¬ (r.clientId = clientId ∧ (some t1 : Option Nat) = none) := by
        simp
      simp [this]
    · simp only [Function.comp_apply, if_neg hr, if_neg hr]
  · intro r hr hcid
    unfold Db.recordLeave at hr
    simp only [List.mem_map] at hr
    obtain ⟨r0, _, rfl⟩ := hr
    by_cases h0 : r0.clientId = clientId ∧ r0.leftAt = none
    · simp [if_pos h0]
    · rw [if_neg h0] at hcid ⊢
      intro habs
      exact h0 ⟨hcid, habs⟩

/-- C9 witness: a registered client removed twice, and a participant table
closed twice, at concrete inputs. -/
theorem C9_witness :
    ((stAB.cm.removeConnection "cB").2.removeConnection "cB"
        = (none, (stAB.cm.removeConnection "cB").2))
      ∧ Db.recordLeave (Db.recordLeave stAB.db "cB" 5) "cB" 6
          = Db.recordLeave stAB.db "cB" 5
      ∧ ∀ r ∈ (Db.recordLeave stAB.db "cB" 5).participants,
          r.clientId = "cB" → r.leftAt ≠ none :=
  C9_detach_record_leave_idempotent stAB.cm "cB" stAB.db 5 6
    ("R1", userB) (by decide)

/-- C7 counterexample: an `update` and a `presence` frame from a session
that never completed a `connect` are dropped silently — the state is
unchanged and the send list is empty — so no `error` frame with code
`NOT_CONNECTED` is sent to the sender, contrary to the claim. -/
theorem C7_counterexample :
    handleUpdate "c" "AAEC" ServerState.empty = (ServerState.empty, [])
      ∧ handlePresence "c" none none none ServerState.empty
          = (ServerState.empty, []) :=
  ⟨rfl, rfl⟩

/-- C7 (amended): an `update` or `presence` frame from a session that has
not completed a `connect` (no registered connection) has no effect on any
document and nothing is broadcast; the frame is dropped silently, with no
error frame of any kind sent back (the source returns early without sending
`NOT_CONNECTED`). -/
theorem C7_unconnected_frames_dropped (clientId : String) (delta : String)
    (cursor : Option Point) (selection : Option (List String))
    (viewport : Option Viewport) (st : ServerState)
    (h : mget st.cm.connections clientId = none) :
    handleUpdate clientId delta st = (st, [])
      ∧ handlePresence clientId cursor selection viewport st = (st, []) := by
  constructor
  · unfold handleUpdate ConnectionManager.getRoomId
    rw [h]
    rfl
  · unfold handlePresence ConnectionManager.getRoomId
    rw [h]
    rfl

/-- C7 witness: a concrete unconnected sender against a live two-client
state. -/
theorem C7_witness :
    handleUpdate "ghost" "AAEC" stAB = (stAB, [])
      ∧ handlePresence "ghost" none none none stAB = (stAB, []) :=
  C7_unconnected_frames_dropped "ghost" "AAEC" none none none stAB (by decide)

/-- C8 counterexample: a well-formed frame whose `type` discriminator is
unknown (`"bogus"`), sent by a registered client with an open socket, falls
through the `switch` with no `case` and no `default`: nothing is sent back
(no `INVALID_MESSAGE` error frame), contrary to the claim. -/
theorem C8_counterexample :
    handleMessage "cA" (Frame.unknownType "bogus") 9 stAB = (stAB, []) :=
  rfl

/-- C8 (amended): for an inbound payload that fails to parse, the server
sends the sender (when registered with an open socket) exactly one `error`
frame with code `INVALID_MESSAGE`, leaving the whole server state — the
registry included — unchanged and closing nothing; a parseable frame with
an unknown `type` discriminator is instead ignored silently, with no error
frame sent. -/
theorem C8_invalid_message (clientId : String) (t : String) (now : Nat)
    (st : ServerState) (conn : ClientConnection)
    (h : mget st.cm.connections clientId = some conn)
    (hw : conn.wsOpen = true) :
    handleMessage clientId Frame.malformed now st
        = (st, [(clientId,
            ServerMessage.error "INVALID_MESSAGE" "Failed to process message")])
      ∧ handleMessage clientId (Frame.unknownType t) now st = (st, []) := by
  constructor
  · unfold handleMessage
    rw [sendToClient_open st.cm clientId _ conn h hw]
  · rfl

/-- C8 witness: a malformed payload and an unknown-type payload from the
registered client `cA`. -/
theorem C8_witness :
    handleMessage "cA" Frame.malformed 9 stAB
        = (stAB, [("cA",
            ServerMessage.error "INVALID_MESSAGE" "Failed to process message")])
      ∧ handleMessage "cA" (Frame.unknownType "nonsense") 9 stAB = (stAB, []) :=
  C8_invalid_message "cA" "nonsense" 9 stAB ⟨true, "R1", userA, 0⟩
    (by decide) rfl

/-- C1: when client `b`, registered in its room with an open socket, sends
`update {delta}` and the room's document is cached, the server applies the
base64-decoded bytes of `delta` to that document (touching nothing else),
and emits `update {delta, from := b}` with the identical delta string to
exactly the other members of the room that are registered with open
sockets; `b` itself receives nothing. -/
theorem C1_update_fanout (b : String) (delta : String) (st : ServerState)
    (conn : ClientConnection) (doc : YDoc)
    (hb : mget st.cm.connections b = some conn)
    (hopen : conn.wsOpen = true)
    (hdoc : mget st.ym.documents conn.roomId = some doc) :
    (handleUpdate b delta st).1.ym.documents
        = mset st.ym.documents conn.roomId (Y.applyUpdate doc (b64decode delta))
      ∧ (handleUpdate b delta st).1.cm = st.cm
      ∧ (handleUpdate b delta st).1.db = st.db
      ∧ (∀ cid m, (cid, m) ∈ (handleUpdate b delta st).2 ↔
          (m = ServerMessage.update delta b
            ∧ cid ∈ bucketOf st.cm conn.roomId
            ∧ cid ≠ b
            ∧ ∃ c, mget st.cm.connections cid = some c ∧ c.wsOpen = true))
      ∧ (∀ m, (b, m) ∉ (handleUpdate b delta st).2) := by
  have hrid : st.cm.getRoomId b = some conn.roomId := by
    unfold ConnectionManager.getRoomId
    rw [hb]
    rfl
  have hstep : handleUpdate b delta st
      = ({ st with ym := st.ym.applyUpdate conn.roomId (b64decode delta) },
          st.cm.broadcastToRoom conn.roomId (ServerMessage.update delta b)
            (some b)) := by
    unfold handleUpdate
    rw [hrid]
  rw [hstep]
  refine ⟨?_, rfl, rfl, ?_, ?_⟩
  · show (st.ym.applyUpdate conn.roomId (b64decode delta)).documents = _
    unfold YjsManager.applyUpdate
    rw [hdoc]
  · intro cid m
    rw [mem_broadcastToRoom]
    constructor
    · rintro ⟨rfl, hmem, hex, c, hc, hw⟩
      refine ⟨rfl, hmem, ?_, c, hc, hw⟩
      intro hcid
      exact hex (by rw [hcid])
    · rintro ⟨rfl, hmem, hne, c, hc, hw⟩
      refine ⟨rfl, hmem, ?_, c, hc, hw⟩
      intro hsome
      exact hne (Option.some.inj hsome).symm
  · intro m hm
    rw [mem_broadcastToRoom] at hm
    exact hm.2.2.1 rfl

/-- C1 witness: scenario S1 — B sends `update {delta := "AAEC"}` in the
two-client room; only A is targeted, with the identical delta. -/
theorem C1_witness :
    (handleUpdate "cB" "AAEC" stAB).1.ym.documents
        = mset stAB.ym.documents "R1" (Y.applyUpdate [] (b64decode "AAEC"))
      ∧ (handleUpdate "cB" "AAEC" stAB).1.cm = stAB.cm
      ∧ (handleUpdate "cB" "AAEC" stAB).1.db = stAB.db
      ∧ (∀ cid m, (cid, m) ∈ (handleUpdate "cB" "AAEC" stAB).2 ↔
          (m = ServerMessage.update "AAEC" "cB"
            ∧ cid ∈ bucketOf stAB.cm "R1"
            ∧ cid ≠ "cB"
            ∧ ∃ c, mget stAB.cm.connections cid = some c ∧ c.wsOpen = true))
      ∧ (∀ m, ("cB", m) ∉ (handleUpdate "cB" "AAEC" stAB).2) :=
  C1_update_fanout "cB" "AAEC" stAB ⟨true, "R1", userB, 1⟩ []
    (by decide) rfl (by decide)

theorem agrees_empty : RegistryAgrees ConnectionManager.empty := by
  intro roomId cid
  simp [bucketOf, mget, ConnectionManager.empty]

theorem noempty_empty : NoEmptyBucket ConnectionManager.empty := by
  intro roomId
  simp [mget, ConnectionManager.empty]

theorem agrees_add (cm : ConnectionManager) (clientId : String)
    (wsOpen : Bool) (roomId : String) (user : User) (now : Nat)
    (hfresh : mget cm.connections clientId = none)
    (hA : RegistryAgrees cm) :
    RegistryAgrees (cm.addConnection clientId wsOpen roomId user now) := by
  have hb1 : bucketOf (cm.addConnection clientId wsOpen roomId user now) roomId
      = sadd (bucketOf cm roomId) clientId := by
    show (mget (mset cm.roomClients roomId
        (sadd ((mget cm.roomClients roomId).getD []) clientId)) roomId).getD []
      = sadd (bucketOf cm roomId) clientId
    rw [mget_mset_self]
    rfl
  have hb2 : ∀ r, r ≠ roomId →
      bucketOf (cm.addConnection clientId wsOpen roomId user now) r
        = bucketOf cm r := by
    intro r hr
    show (mget (mset cm.roomClients roomId
        (sadd ((mget cm.roomClients roomId).getD []) clientId)) r).getD []
      = bucketOf cm r
    rw [mget_mset_ne _ _ _ _ hr]
    rfl
  have hcn1 : mget (cm.addConnection clientId wsOpen roomId user now).connections
      clientId = some ⟨wsOpen, roomId, user, now⟩ := by
    show mget (mset cm.connections clientId ⟨wsOpen, roomId, user, now⟩) clientId
      = _
    rw [mget_mset_self]
  have hcn2 : ∀ cid, cid ≠ clientId →
      mget (cm.addConnection clientId wsOpen roomId user now).connections cid
        = mget cm.connections cid := by
    intro cid hcid
    show mget (mset cm.connections clientId ⟨wsOpen, roomId, user, now⟩) cid = _
    rw [mget_mset_ne _ _ _ _ hcid]
  intro r cid
  by_cases hcid : cid = clientId
  · by_cases hr : r = roomId
    · constructor
      · intro _
        exact ⟨⟨wsOpen, roomId, user, now⟩, by rw [hcid]; exact hcn1, hr.symm⟩
      · intro _
        rw [hr, hb1, mem_sadd]
        exact Or.inl hcid
    · constructor
      · intro hmem
        exfalso
        rw [hb2 r hr] at hmem
        obtain ⟨c, hcc, _⟩ := (hA r cid).mp hmem
        rw [hcid, hfresh] at hcc
        exact Option.noConfusion hcc
      · rintro ⟨c, hcc, hcr⟩
        exfalso
        rw [hcid, hcn1] at hcc
        obtain rfl := Option.some.inj hcc
        exact hr (by rw [← hcr])
  · by_cases hr : r = roomId
    · rw [hr, hb1, mem_sadd]
      constructor
      · rintro (h1 | h2)
        · exact absurd h1 hcid
        · obtain ⟨c, hcc, hcr⟩ := (hA roomId cid).mp h2
          exact ⟨c, by rw [hcn2 cid hcid]; exact hcc, hcr⟩
      · rintro ⟨c, hcc, hcr⟩
        rw [hcn2 cid hcid] at hcc
        exact Or.inr ((hA roomId cid).mpr ⟨c, hcc, hcr⟩)
    · rw [hb2 r hr]
      constructor
      · intro hmem
        obtain ⟨c, hcc, hcr⟩ := (hA r cid).mp hmem
        exact ⟨c, by rw [hcn2 cid hcid]; exact hcc, hcr⟩
      · rintro ⟨c, hcc, hcr⟩
        rw [hcn2 cid hcid] at hcc
        exact (hA r cid).mpr ⟨c, hcc, hcr⟩

theorem noempty_add (cm : ConnectionManager) (clientId : String)
    (wsOpen : Bool) (roomId : String) (user : User) (now : Nat)
    (hN : NoEmptyBucket cm) :
    NoEmptyBucket (cm.addConnection clientId wsOpen roomId user now) := by
  intro r
  by_cases hr : r = roomId
  · show mget (mset cm.roomClients roomId
        (sadd ((mget cm.roomClients roomId).getD []) clientId)) r ≠ some []
    rw [hr, mget_mset_self]
    intro hcc
    exact sadd_ne_nil _ _ (Option.some.inj hcc)
  · show mget (mset cm.roomClients roomId
        (sadd ((mget cm.roomClients roomId).getD []) clientId)) r ≠ some []
    rw [mget_mset_ne _ _ _ _ hr]
    exact hN r

theorem agrees_remove (cm : ConnectionManager) (clientId : String)
    (hA : RegistryAgrees cm) (hN : NoEmptyBucket cm) :
    RegistryAgrees (cm.removeConnection clientId).2
      ∧ NoEmptyBucket (cm.removeConnection clientId).2 := by
  cases hc : mget cm.connections clientId with
  | none =>
    rw [removeConnection_of_mget_none cm clientId hc]
    exact ⟨hA, hN⟩
  | some conn =>
    have hmem : clientId ∈ bucketOf cm conn.roomId :=
      (hA conn.roomId clientId).mpr ⟨conn, hc, rfl⟩
    cases hbkt : mget cm.roomClients conn.roomId with
    | none =>
      exfalso
      unfold bucketOf at hmem
      rw [hbkt] at hmem
      simp at hmem
    | some roomSet =>
      have hmemset : clientId ∈ roomSet := by
        unfold bucketOf at hmem
        rw [hbkt] at hmem
        exact hmem
      have hstep : cm.removeConnection clientId
          = (some (conn.roomId, conn.user),
              { connections := mdel cm.connections clientId,
                roomClients :=
                  if serase roomSet clientId = [] then
                    mdel cm.roomClients conn.roomId
                  else mset cm.roomClients conn.roomId
                    (serase roomSet clientId) }) := by
        simp only [ConnectionManager.removeConnection, hc, hbkt]
      rw [hstep]
      by_cases hnil : serase roomSet clientId = []
      · rw [if_pos hnil]
        constructor
        · intro r cid
          by_cases hr : r = conn.roomId
          · rw [hr]
            constructor
            · intro hmx
              exfalso
              unfold bucketOf at hmx
              rw [mget_mdel_self] at hmx
              simp at hmx
            · rintro ⟨c, hcc, hcr⟩
              exfalso
              by_cases hcidc : cid = clientId
              · rw [hcidc, mget_mdel_self] at hcc
                exact Option.noConfusion hcc
              · rw [mget_mdel_ne _ _ _ hcidc] at hcc
                have h3 := (hA conn.roomId cid).mpr ⟨c, hcc, hcr⟩
                unfold bucketOf at h3
                rw [hbkt] at h3
                have h4 : cid ∈ serase roomSet clientId :=
                  (mem_serase _ _ _).mpr ⟨h3, hcidc⟩
                rw [hnil] at h4
                simp at h4
          · have hbu : bucketOf
                ⟨mdel cm.connections clientId, mdel cm.roomClients conn.roomId⟩ r
                  = bucketOf cm r := by
              unfold bucketOf
              rw [mget_mdel_ne _ _ _ hr]
            rw [hbu]
            by_cases hcidc : cid = clientId
            · constructor
              · intro hmx
                exfalso
                obtain ⟨c, hcc, hcr⟩ := (hA r cid).mp hmx
                rw [hcidc, hc] at hcc
                obtain rfl := Option.some.inj hcc
                exact hr hcr.symm
              · rintro ⟨c, hcc, hcr⟩
                exfalso
                rw [hcidc, mget_mdel_self] at hcc
                exact Option.noConfusion hcc
            · rw [hA r cid]
              constructor
              · rintro ⟨c, hcc, hcr⟩
                exact ⟨c, by rw [mget_mdel_ne _ _ _ hcidc]; exact hcc, hcr⟩
              · rintro ⟨c, hcc, hcr⟩
                rw [mget_mdel_ne _ _ _ hcidc] at hcc
                exact ⟨c, hcc, hcr⟩
        · intro r
          by_cases hr : r = conn.roomId
          · show mget (mdel cm.roomClients conn.roomId) r ≠ some []
            rw [hr, mget_mdel_self]
            exact Option.noConfusion
          · show mget (mdel cm.roomClients conn.roomId) r ≠ some []
            rw [mget_mdel_ne _ _ _ hr]
            exact hN r
      · rw [if_neg hnil]
        constructor
        · intro r cid
          by_cases hr : r = conn.roomId
          · have hbu : bucketOf
                ⟨mdel cm.connections clientId,
                  mset cm.roomClients conn.roomId (serase roomSet clientId)⟩ r
                  = serase roomSet clientId := by
              unfold bucketOf
              rw [hr, mget_mset_self]
              rfl
            rw [hbu, mem_serase]
            by_cases hcidc : cid = clientId
            · constructor
              · rintro ⟨_, hne⟩
                exact absurd hcidc hne
              · rintro ⟨c, hcc, hcr⟩
                exfalso
                rw [hcidc, mget_mdel_self] at hcc
                exact Option.noConfusion hcc
            · constructor
              · rintro ⟨hin, _⟩
                have h3 : cid ∈ bucketOf cm conn.roomId := by
                  unfold bucketOf
                  rw [hbkt]
                  exact hin
                obtain ⟨c, hcc, hcr⟩ := (hA conn.roomId cid).mp h3
                exact ⟨c, by rw [mget_mdel_ne _ _ _ hcidc]; exact hcc,
                  by rw [hcr, hr]⟩
              · rintro ⟨c, hcc, hcr⟩
                rw [mget_mdel_ne _ _ _ hcidc] at hcc
                have h3 := (hA conn.roomId cid).mpr
                  ⟨c, hcc, by rw [hcr, hr]⟩
                unfold bucketOf at h3
                rw [hbkt] at h3
                exact ⟨h3, hcidc⟩
          · have hbu : bucketOf
                ⟨mdel cm.connections clientId,
                  mset cm.roomClients conn.roomId (serase roomSet clientId)⟩ r
                  = bucketOf cm r := by
              unfold bucketOf
              rw [mget_mset_ne _ _ _ _ hr]
            rw [hbu]
            by_cases hcidc : cid = clientId
            · constructor
              · intro hmx
                exfalso
                obtain ⟨c, hcc, hcr⟩ := (hA r cid).mp hmx
                rw [hcidc, hc] at hcc
                obtain rfl := Option.some.inj hcc
                exact hr hcr.symm
              · rintro ⟨c, hcc, hcr⟩
                exfalso
                rw [hcidc, mget_mdel_self] at hcc
                exact Option.noConfusion hcc
            · rw [hA r cid]
              constructor
              · rintro ⟨c, hcc, hcr⟩
                exact ⟨c, by rw [mget_mdel_ne _ _ _ hcidc]; exact hcc, hcr⟩
              · rintro ⟨c, hcc, hcr⟩
                rw [mget_mdel_ne _ _ _ hcidc] at hcc
                exact ⟨c, hcc, hcr⟩
        · intro r
          by_cases hr : r = conn.roomId
          · show mget (mset cm.roomClients conn.roomId
                (serase roomSet clientId)) r ≠ some []
            rw [hr, mget_mset_self]
            intro hcc
            exact hnil (Option.some.inj hcc)
          · show mget (mset cm.roomClients conn.roomId
                (serase roomSet clientId)) r ≠ some []
            rw [mget_mset_ne _ _ _ _ hr]
            exact hN r

/-- C3 counterexample: calling `addConnection` again for the already
registered client `c` with a different room does not fail — there is no
`AlreadyAttached` error anywhere in the source — and it corrupts the
indexes: `c` ends up in both `r1`'s and `r2`'s buckets while the primary
entry names `r2`, so the two indexes disagree and a clientId occupies two
rooms at once. -/
theorem C3_counterexample :
    "c" ∈ bucketOf ((ConnectionManager.empty.addConnection "c" true "r1"
        userA 0).addConnection "c" true "r2" userA 1) "r1"
      ∧ "c" ∈ bucketOf ((ConnectionManager.empty.addConnection "c" true "r1"
          userA 0).addConnection "c" true "r2" userA 1) "r2"
      ∧ ("r1" : String) ≠ "r2"
      ∧ mget ((ConnectionManager.empty.addConnection "c" true "r1"
          userA 0).addConnection "c" true "r2" userA 1).connections "c"
          = some ⟨true, "r2", userA, 1⟩ := by
  decide

/-- C3 (amended): in every registry state reachable by `addConnection` and
`removeConnection` calls in which each `addConnection` is for a clientId
that is not currently registered, the two indexes agree, no empty bucket is
retained, and every clientId occupies at most one room's bucket.  (An
`addConnection` for an already-registered session does not fail with
`AlreadyAttached`: it succeeds and overwrites the primary entry, which is
what the counterexample exploits.) -/
theorem C3_registry_invariants (cm : ConnectionManager) (h : RegReach cm) :
    RegistryAgrees cm ∧ NoEmptyBucket cm
      ∧ ∀ cid r1 r2, cid ∈ bucketOf cm r1 → cid ∈ bucketOf cm r2 →
          r1 = r2 := by
  have main : RegistryAgrees cm ∧ NoEmptyBucket cm := by
    induction h with
    | init => exact ⟨agrees_empty, noempty_empty⟩
    | add cm0 clientId wsOpen roomId user now h0 hfresh ih =>
        exact ⟨agrees_add cm0 clientId wsOpen roomId user now hfresh ih.1,
          noempty_add cm0 clientId wsOpen roomId user now ih.2⟩
    | remove cm0 clientId h0 ih =>
        exact agrees_remove cm0 clientId ih.1 ih.2
  refine ⟨main.1, main.2, ?_⟩
  intro cid r1 r2 h1 h2
  obtain ⟨c1, hc1, hr1⟩ := (main.1 r1 cid).mp h1
  obtain ⟨c2, hc2, hr2⟩ := (main.1 r2 cid).mp h2
  rw [hc1] at hc2
  obtain rfl := Option.some.inj hc2
  rw [← hr1, ← hr2]

/-- C3 witness: the invariants at a concrete reachable state (add two
clients to two rooms, remove one). -/
theorem C3_witness :
    RegistryAgrees (((ConnectionManager.empty.addConnection "cA" true "r1"
          userA 0).addConnection "cB" true "r2" userB 1).removeConnection
            "cA").2
      ∧ NoEmptyBucket (((ConnectionManager.empty.addConnection "cA" true "r1"
          userA 0).addConnection "cB" true "r2" userB 1).removeConnection
            "cA").2
      ∧ ∀ cid r1 r2,
          cid ∈ bucketOf (((ConnectionManager.empty.addConnection "cA" true
            "r1" userA 0).addConnection "cB" true "r2" userB
              1).removeConnection "cA").2 r1 →
          cid ∈ bucketOf (((ConnectionManager.empty.addConnection "cA" true
            "r1" userA 0).addConnection "cB" true "r2" userB
              1).removeConnection "cA").2 r2 →
          r1 = r2 :=
  C3_registry_invariants _
    (RegReach.remove _ "cA"
      (RegReach.add _ "cB" true "r2" userB 1
        (RegReach.add _ "cA" true "r1" userA 0 RegReach.init rfl)
        (by decide)))

theorem getOrCreateDocument_existing (ym : YjsManager) (roomId : String)
    (db : Db) (d : YDoc) (hd : mget ym.documents roomId = some d) :
    ym.getOrCreateDocument roomId db = ym := by
  unfold YjsManager.getOrCreateDocument
  rw [hd]

theorem getOrCreateDocument_fresh (ym : YjsManager) (roomId : String)
    (db : Db) (hd : mget ym.documents roomId = none) :
    mget (ym.getOrCreateDocument roomId db).documents roomId
      = some (seedDoc (db.newestSnapshot roomId)) := by
  unfold YjsManager.getOrCreateDocument
  rw [hd]
  show mget (mset ym.documents roomId (seedDoc (db.newestSnapshot roomId)))
      roomId = _
  rw [mget_mset_self]

theorem getStateAsUpdate_of_mget (ym : YjsManager) (roomId : String)
    (d : YDoc) (hd : mget ym.documents roomId = some d) :
    ym.getStateAsUpdate roomId = some (Y.encodeStateAsUpdate d) := by
  unfold YjsManager.getStateAsUpdate
  rw [hd]
  rfl

theorem newestSnapshot_congr (db1 db2 : Db) (roomId : String)
    (h : db1.snapshots = db2.snapshots) :
    db1.newestSnapshot roomId = db2.newestSnapshot roomId := by
  unfold Db.newestSnapshot Db.snapshotsByVersionDesc Db.roomSnapshots
  rw [h]

theorem findRoom_touchRoom (db : Db) (roomId : String) (now : Nat) :
    (db.touchRoom roomId now).findRoom roomId
      = (db.findRoom roomId).map (fun r => { r with lastActive := now }) := by
  unfold Db.findRoom Db.touchRoom
  show List.find? _ (db.rooms.map _) = _
  induction db.rooms with
  | nil => rfl
  | cons r rest ih =>
    by_cases hr : r.id = roomId
    · simp [List.find?_cons, hr]
    · have hb : (r.id == roomId) = false := by
        simp [hr]
      simp only [List.map_cons, List.find?_cons, if_neg hr, hb]
      exact ih

theorem findRoom_createRoom (db : Db) (roomId : String) (creatorId : String)
    (now : Nat) (h : db.findRoom roomId = none) :
    (db.createRoom roomId creatorId now).findRoom roomId
      = some ⟨roomId, "Room " ++ roomId, creatorId, now⟩ := by
  unfold Db.findRoom Db.createRoom
  unfold Db.findRoom at h
  rw [List.find?_append, h]
  simp

/-- The participant frame write produced by `sendToClient` can only be the
given frame to the given client. -/
theorem mem_sendToClient (cm : ConnectionManager) (c : String)
    (msg : ServerMessage) (p : String × ServerMessage)
    (h : p ∈ cm.sendToClient c msg) : p = (c, msg) := by
  unfold ConnectionManager.sendToClient at h
  cases hc : mget cm.connections c with
  | none =>
    rw [hc] at h
    simp at h
  | some conn =>
    rw [hc] at h
    by_cases hw : conn.wsOpen = true
    · simp [hw] at h
      exact h
    · simp [hw] at h

theorem handleConnect_cm (clientId : String) (wsOpen : Bool) (roomId : String)
    (user : User) (now : Nat) (st : ServerState) :
    (handleConnect clientId wsOpen roomId user now st).1.cm
      = st.cm.addConnection clientId wsOpen roomId user now := rfl

theorem handleConnect_pending (clientId : String) (wsOpen : Bool)
    (roomId : String) (user : User) (now : Nat) (st : ServerState) :
    (handleConnect clientId wsOpen roomId user now st).1.pendingDestroys
      = st.pendingDestroys := rfl

theorem handleConnect_participants (clientId : String) (wsOpen : Bool)
    (roomId : String) (user : User) (now : Nat) (st : ServerState) :
    (handleConnect clientId wsOpen roomId user now st).1.db.participants
      = st.db.participants ++
          [⟨roomId, user.id, clientId, user.name, user.color, "editor", now,
            none⟩] := by
  unfold handleConnect
  cases st.db.findRoom roomId <;> rfl

theorem handleConnect_snapshots (clientId : String) (wsOpen : Bool)
    (roomId : String) (user : User) (now : Nat) (st : ServerState) :
    (handleConnect clientId wsOpen roomId user now st).1.db.snapshots
      = st.db.snapshots := by
  unfold handleConnect
  cases st.db.findRoom roomId <;> rfl

theorem handleConnect_ym (clientId : String) (wsOpen : Bool) (roomId : String)
    (user : User) (now : Nat) (st : ServerState) :
    (handleConnect clientId wsOpen roomId user now st).1.ym
      = st.ym.getOrCreateDocument roomId
          (handleConnect clientId wsOpen roomId user now st).1.db := by
  unfold handleConnect
  cases st.db.findRoom roomId <;> rfl

theorem handleConnect_sends (clientId : String) (wsOpen : Bool)
    (roomId : String) (user : User) (now : Nat) (st : ServerState) :
    (handleConnect clientId wsOpen roomId user now st).2
      = (match (st.ym.getOrCreateDocument roomId
            (handleConnect clientId wsOpen roomId user now st).1.db
              ).getStateAsUpdate roomId with
          | some state =>
              (st.cm.addConnection clientId wsOpen roomId user
                now).sendToClient clientId
                (ServerMessage.syncResponse (b64encode state)
                  ((st.cm.addConnection clientId wsOpen roomId user
                    now).getRoomParticipants roomId))
          | none => []) ++
        (st.cm.addConnection clientId wsOpen roomId user now).broadcastToRoom
          roomId (ServerMessage.join user clientId roomId) (some clientId) := by
  unfold handleConnect
  cases st.db.findRoom roomId <;> rfl

theorem handleConnect_registered (clientId : String) (wsOpen : Bool)
    (roomId : String) (user : User) (now : Nat) (st : ServerState) :
    mget (handleConnect clientId wsOpen roomId user now st).1.cm.connections
        clientId = some ⟨wsOpen, roomId, user, now⟩
      ∧ clientId ∈ bucketOf
          (handleConnect clientId wsOpen roomId user now st).1.cm roomId := by
  rw [handleConnect_cm]
  constructor
  · show mget (mset st.cm.connections clientId ⟨wsOpen, roomId, user, now⟩)
        clientId = _
    rw [mget_mset_self]
  · show clientId ∈ (mget (mset st.cm.roomClients roomId
        (sadd ((mget st.cm.roomClients roomId).getD []) clientId)) roomId).getD []
    rw [mget_mset_self]
    show clientId ∈ sadd (bucketOf st.cm roomId) clientId
    rw [mem_sadd]
    exact Or.inl rfl

/-- C2: the connect handshake for a fresh session performs exactly the
advertised sequence: the room is looked up (auto-created if absent) and its
`lastActive` set to now; the connection is registered in both registry
indexes; a participant row with role `editor` and null `leftAt` is
appended; the room's document is reused if cached, otherwise created and
seeded from the newest persisted snapshot; a `sync-response` carrying the
document's current full state (base64) and the room's participant list is
sent to the connecting client first; and a `join {user, clientId, roomId}`
frame goes to the other room members only — the connecting client gets no
`join`. -/
theorem C2_connect_handshake (clientId : String) (roomId : String)
    (user : User) (now : Nat) (st : ServerState)
    (hfresh : mget st.cm.connections clientId = none) :
    (∃ r, (handleConnect clientId true roomId user now st).1.db.findRoom
        roomId = some r ∧ r.lastActive = now)
      ∧ mget (handleConnect clientId true roomId user now st).1.cm.connections
          clientId = some ⟨true, roomId, user, now⟩
      ∧ clientId ∈ bucketOf
          (handleConnect clientId true roomId user now st).1.cm roomId
      ∧ (handleConnect clientId true roomId user now st).1.db.participants
          = st.db.participants ++
              [⟨roomId, user.id, clientId, user.name, user.color, "editor",
                now, none⟩]
      ∧ ∃ d, mget (handleConnect clientId true roomId user now
              st).1.ym.documents roomId = some d
          ∧ (mget st.ym.documents roomId = some d
              ∨ (mget st.ym.documents roomId = none
                  ∧ d = seedDoc (st.db.newestSnapshot roomId)))
          ∧ (handleConnect clientId true roomId user now st).2
              = (clientId, ServerMessage.syncResponse
                    (b64encode (Y.encodeStateAsUpdate d))
                    ((handleConnect clientId true roomId user now
                      st).1.cm.getRoomParticipants roomId))
                :: (handleConnect clientId true roomId user now
                    st).1.cm.broadcastToRoom roomId
                    (ServerMessage.join user clientId roomId) (some clientId)
          ∧ ∀ m, (clientId, m) ∉
              ((handleConnect clientId true roomId user now st).2).tail := by
  have hreg : mget (st.cm.addConnection clientId true roomId user
      now).connections clientId = some ⟨true, roomId, user, now⟩ := by
    show mget (mset st.cm.connections clientId ⟨true, roomId, user, now⟩)
        clientId = _
    rw [mget_mset_self]
  refine ⟨?_, (handleConnect_registered clientId true roomId user now st).1,
    (handleConnect_registered clientId true roomId user now st).2,
    handleConnect_participants clientId true roomId user now st, ?_⟩
  · cases hroom : st.db.findRoom roomId with
    | some r0 =>
      refine ⟨{ r0 with lastActive := now }, ?_, rfl⟩
      have hdb : (handleConnect clientId true roomId user now
          st).1.db.findRoom roomId
            = (st.db.touchRoom roomId now).findRoom roomId := by
        unfold handleConnect
        rw [hroom]
        rfl
      rw [hdb, findRoom_touchRoom, hroom]
      rfl
    | none =>
      refine ⟨⟨roomId, "Room " ++ roomId, user.id, now⟩, ?_, rfl⟩
      have hdb : (handleConnect clientId true roomId user now
          st).1.db.findRoom roomId
            = ((st.db.createRoom roomId user.id now).touchRoom roomId
                now).findRoom roomId := by
        unfold handleConnect
        rw [hroom]
        rfl
      rw [hdb, findRoom_touchRoom,
        findRoom_createRoom st.db roomId user.id now hroom]
      rfl
  · cases hdoc : mget st.ym.documents roomId with
    | some d =>
      have hym : (handleConnect clientId true roomId user now st).1.ym
          = st.ym := by
        rw [handleConnect_ym]
        exact getOrCreateDocument_existing st.ym roomId _ d hdoc
      have hstate : (st.ym.getOrCreateDocument roomId
          (handleConnect clientId true roomId user now st).1.db
            ).getStateAsUpdate roomId
              = some (Y.encodeStateAsUpdate d) := by
        rw [← handleConnect_ym, hym]
        exact getStateAsUpdate_of_mget st.ym roomId d hdoc
      have h1 : (handleConnect clientId true roomId user now st).2
          = (st.cm.addConnection clientId true roomId user now).sendToClient
              clientId (ServerMessage.syncResponse
                (b64encode (Y.encodeStateAsUpdate d))
                ((st.cm.addConnection clientId true roomId user
                  now).getRoomParticipants roomId))
            ++ (st.cm.addConnection clientId true roomId user
                now).broadcastToRoom roomId
                (ServerMessage.join user clientId roomId) (some clientId) := by
        rw [handleConnect_sends, hstate]
      have hsend : (handleConnect clientId true roomId user now st).2
          = (clientId, ServerMessage.syncResponse
                (b64encode (Y.encodeStateAsUpdate d))
                ((handleConnect clientId true roomId user now
                  st).1.cm.getRoomParticipants roomId))
            :: (handleConnect clientId true roomId user now
                st).1.cm.broadcastToRoom roomId
                (ServerMessage.join user clientId roomId) (some clientId) := by
        rw [h1, sendToClient_open _ clientId _ _ hreg rfl]
        rfl
      refine ⟨d, by rw [hym]; exact hdoc, Or.inl rfl, hsend, ?_⟩
      intro m hm
      rw [hsend] at hm
      simp only [List.tail_cons] at hm
      rw [mem_broadcastToRoom] at hm
      exact hm.2.2.1 rfl
    | none =>
      have hd2 : mget (handleConnect clientId true roomId user now
          st).1.ym.documents roomId
            = some (seedDoc (st.db.newestSnapshot roomId)) := by
        rw [handleConnect_ym, getOrCreateDocument_fresh st.ym roomId _ hdoc,
          newestSnapshot_congr _ st.db roomId
            (handleConnect_snapshots clientId true roomId user now st)]
      have hstate : (st.ym.getOrCreateDocument roomId
          (handleConnect clientId true roomId user now st).1.db
            ).getStateAsUpdate roomId
              = some (Y.encodeStateAsUpdate
                  (seedDoc (st.db.newestSnapshot roomId))) := by
        apply getStateAsUpdate_of_mget
        rw [← handleConnect_ym]
        exact hd2
      have h1 : (handleConnect clientId true roomId user now st).2
          = (st.cm.addConnection clientId true roomId user now).sendToClient
              clientId (ServerMessage.syncResponse
                (b64encode (Y.encodeStateAsUpdate
                  (seedDoc (st.db.newestSnapshot roomId))))
                ((st.cm.addConnection clientId true roomId user
                  now).getRoomParticipants roomId))
            ++ (st.cm.addConnection clientId true roomId user
                now).broadcastToRoom roomId
                (ServerMessage.join user clientId roomId) (some clientId) := by
        rw [handleConnect_sends, hstate]
      have hsend : (handleConnect clientId true roomId user now st).2
          = (clientId, ServerMessage.syncResponse
                (b64encode (Y.encodeStateAsUpdate
                  (seedDoc (st.db.newestSnapshot roomId))))
                ((handleConnect clientId true roomId user now
                  st).1.cm.getRoomParticipants roomId))
            :: (handleConnect clientId true roomId user now
                st).1.cm.broadcastToRoom roomId
                (ServerMessage.join user clientId roomId) (some clientId) := by
        rw [h1, sendToClient_open _ clientId _ _ hreg rfl]
        rfl
      refine ⟨seedDoc (st.db.newestSnapshot roomId), hd2,
        Or.inr ⟨rfl, rfl⟩, hsend, ?_⟩
      intro m hm
      rw [hsend] at hm
      simp only [List.tail_cons] at hm
      rw [mem_broadcastToRoom] at hm
      exact hm.2.2.1 rfl

/-- C2 witness: A's connect to the fresh room `R1` on an empty server. -/
theorem C2_witness :
    (∃ r, (handleConnect "cA" true "R1" userA 0
        ServerState.empty).1.db.findRoom "R1" = some r ∧ r.lastActive = 0)
      ∧ mget (handleConnect "cA" true "R1" userA 0
          ServerState.empty).1.cm.connections "cA"
            = some ⟨true, "R1", userA, 0⟩
      ∧ "cA" ∈ bucketOf (handleConnect "cA" true "R1" userA 0
          ServerState.empty).1.cm "R1"
      ∧ (handleConnect "cA" true "R1" userA 0
          ServerState.empty).1.db.participants
            = ServerState.empty.db.participants ++
                [⟨"R1", userA.id, "cA", userA.name, userA.color, "editor", 0,
                  none⟩]
      ∧ ∃ d, mget (handleConnect "cA" true "R1" userA 0
              ServerState.empty).1.ym.documents "R1" = some d
          ∧ (mget ServerState.empty.ym.documents "R1" = some d
              ∨ (mget ServerState.empty.ym.documents "R1" = none
                  ∧ d = seedDoc (ServerState.empty.db.newestSnapshot "R1")))
          ∧ (handleConnect "cA" true "R1" userA 0 ServerState.empty).2
              = ("cA", ServerMessage.syncResponse
                    (b64encode (Y.encodeStateAsUpdate d))
                    ((handleConnect "cA" true "R1" userA 0
                      ServerState.empty).1.cm.getRoomParticipants "R1"))
                :: (handleConnect "cA" true "R1" userA 0
                    ServerState.empty).1.cm.broadcastToRoom "R1"
                    (ServerMessage.join userA "cA" "R1") (some "cA")
          ∧ ∀ m, ("cA", m) ∉
              ((handleConnect "cA" true "R1" userA 0 ServerState.empty).2).tail :=
  C2_connect_handshake "cA" "R1" userA 0 ServerState.empty rfl

/-- C6 counterexample: a second `connect` from the already-connected client
`cA` (still in room `R1`) is not answered with an `ALREADY_CONNECTED` error
and is not ignored: the handler runs the whole handshake again.  Afterwards
the participant table holds two rows for `cA`, the registry entry has been
overwritten (its `joinedAt` is now the second connect's timestamp), and the
only frame sent is a fresh `sync-response` — no error frame of any kind. -/
theorem C6_counterexample :
    ((handleConnect "cA" true "R1" userA 3 stA).1.db.participants.filter
        (fun r => r.clientId == "cA")).length = 2
      ∧ mget (handleConnect "cA" true "R1" userA 3 stA).1.cm.connections "cA"
          = some ⟨true, "R1", userA, 3⟩
      ∧ (handleConnect "cA" true "R1" userA 3 stA).2
          = [("cA", ServerMessage.syncResponse ""
              [⟨"u1", "cA", userA, "editor", 3⟩])] := by
  decide

/-- C6 (amended): a second `connect` from a session that has already
completed one is processed exactly like a fresh handshake: a second
participant row is appended, the registry entry is overwritten with the new
connect's data, and the handler sends no error frame at all (in particular
no `ALREADY_CONNECTED`). -/
theorem C6_reconnect_processed (clientId : String) (roomId : String)
    (user : User) (now : Nat) (st : ServerState) (conn : ClientConnection)
    (hconn : mget st.cm.connections clientId = some conn) :
    (handleConnect clientId true roomId user now st).1.db.participants
        = st.db.participants ++
            [⟨roomId, user.id, clientId, user.name, user.color, "editor", now,
              none⟩]
      ∧ mget (handleConnect clientId true roomId user now st).1.cm.connections
          clientId = some ⟨true, roomId, user, now⟩
      ∧ ∀ p ∈ (handleConnect clientId true roomId user now st).2,
          ∀ code msgtext, p.2 ≠ ServerMessage.error code msgtext := by
  refine ⟨handleConnect_participants clientId true roomId user now st,
    (handleConnect_registered clientId true roomId user now st).1, ?_⟩
  intro p hp code msgtext
  obtain ⟨pc, pm⟩ := p
  rw [handleConnect_sends] at hp
  rcases List.mem_append.mp hp with h1 | h2
  · cases hstate : (st.ym.getOrCreateDocument roomId
        (handleConnect clientId true roomId user now st).1.db
          ).getStateAsUpdate roomId with
    | none =>
      rw [hstate] at h1
      simp at h1
    | some state =>
      rw [hstate] at h1
      have hps := mem_sendToClient _ _ _ _ h1
      rw [hps]
      exact fun h => ServerMessage.noConfusion h
  · rw [mem_broadcastToRoom] at h2
    rw [h2.1]
    exact fun h => ServerMessage.noConfusion h

theorem saveSnapshot_eq (ym : YjsManager) (roomId : String) (db : Db)
    (doc : YDoc) (hdoc : mget ym.documents roomId = some doc) :
    ym.saveSnapshot roomId db
      = (if ((dbAfterInsert db roomId doc).snapshotsByVersionDesc
            roomId).drop 10 = [] then dbAfterInsert db roomId doc
         else
           { dbAfterInsert db roomId doc with
             snapshots := (dbAfterInsert db roomId doc).snapshots.filter
               (fun r => decide (r.id ∉
                 (((dbAfterInsert db roomId doc).snapshotsByVersionDesc
                   roomId).drop 10).map (fun s => s.id))) }) := by
  unfold YjsManager.saveSnapshot
  rw [hdoc]
  rfl

theorem roomSnapshots_dbAfterInsert (db : Db) (roomId : String) (doc : YDoc) :
    (dbAfterInsert db roomId doc).roomSnapshots roomId
      = db.roomSnapshots roomId ++ [savedRow db roomId doc] := by
  unfold Db.roomSnapshots dbAfterInsert
  rw [List.filter_append]
  congr 1
  simp [savedRow]

/-- `versionGe`-sortedness and the permutation property of the version-desc
sort of a room's rows. -/
theorem sorted_snapshotsByVersionDesc (db : Db) (roomId : String) :
    List.Sorted versionGe (db.snapshotsByVersionDesc roomId) :=
  List.sorted_insertionSort versionGe (db.roomSnapshots roomId)

theorem perm_snapshotsByVersionDesc (db : Db) (roomId : String) :
    List.Perm (db.snapshotsByVersionDesc roomId) (db.roomSnapshots roomId) :=
  List.perm_insertionSort versionGe (db.roomSnapshots roomId)

/-- Every row of a room has version at most the newest's. -/
theorem version_le_newest (db : Db) (roomId : String) (s : SnapshotRow)
    (hs : s ∈ db.roomSnapshots roomId) :
    s.version ≤ ((db.newestSnapshot roomId).map (fun t => t.version)).getD 0 := by
  have hmem : s ∈ db.snapshotsByVersionDesc roomId :=
    (perm_snapshotsByVersionDesc db roomId).symm.subset hs
  have hsorted := sorted_snapshotsByVersionDesc db roomId
  cases hsort : db.snapshotsByVersionDesc roomId with
  | nil =>
    rw [hsort] at hmem
    simp at hmem
  | cons m rest =>
    unfold Db.newestSnapshot
    rw [hsort]
    simp only [List.head?_cons, Option.map_some', Option.getD_some]
    rw [hsort] at hmem hsorted
    rcases List.mem_cons.mp hmem with rfl | hrest
    · exact le_refl _
    · exact List.rel_of_sorted_cons hsorted s hrest

/-- When the room has rows, the newest snapshot is one of them. -/
theorem newestSnapshot_mem (db : Db) (roomId : String) (m : SnapshotRow)
    (h : db.newestSnapshot roomId = some m) :
    m ∈ db.roomSnapshots roomId := by
  unfold Db.newestSnapshot at h
  cases hsort : db.snapshotsByVersionDesc roomId with
  | nil =>
    rw [hsort] at h
    simp at h
  | cons m0 rest =>
    rw [hsort] at h
    simp only [List.head?_cons, Option.some.injEq] at h
    apply (perm_snapshotsByVersionDesc db roomId).subset
    rw [hsort, h]
    exact List.mem_cons_self _ _

/-- Deleting the rows whose ids occur beyond position `n` of a
duplicate-free list keeps exactly the first `n` entries. -/
theorem filter_not_in_drop (srt : List SnapshotRow) (n : Nat)
    (hnd : (srt.map (fun s => s.id)).Nodup) :
    srt.filter (fun r =>
        decide (r.id ∉ (srt.drop n).map (fun s => s.id)))
      = srt.take n := by
  have hmapsplit : srt.map (fun s => s.id)
      = (srt.take n).map (fun s => s.id) ++ (srt.drop n).map (fun s => s.id) := by
    rw [← List.map_append, List.take_append_drop]
  rw [hmapsplit] at hnd
  have hdisj := (List.nodup_append.mp hnd).2.2
  have key : ∀ ids : List Nat, ids = (srt.drop n).map (fun s => s.id) →
      srt.filter (fun r => decide (r.id ∉ ids)) = srt.take n := by
    intro ids hids
    conv_lhs => rw [← List.take_append_drop n srt]
    rw [List.filter_append]
    have h1 : (srt.take n).filter (fun r => decide (r.id ∉ ids))
        = srt.take n := by
      rw [List.filter_eq_self]
      intro a ha
      rw [decide_eq_true_eq]
      intro hin
      exact hdisj (List.mem_map_of_mem _ ha) (hids ▸ hin)
    have h2 : (srt.drop n).filter (fun r => decide (r.id ∉ ids)) = [] := by
      rw [List.filter_eq_nil_iff]
      intro a ha
      rw [decide_eq_true_eq]
      intro hnotin
      exact hnotin (hids ▸ List.mem_map_of_mem _ ha)
    rw [h1, h2, List.append_nil]
  exact key _ rfl

theorem nodup_ids_after_insert (db : Db) (roomId : String) (doc : YDoc)
    (hids : (db.snapshots.map (fun s => s.id)).Nodup)
    (hlt : ∀ s ∈ db.snapshots, s.id < db.nextSnapshotId) :
    ((dbAfterInsert db roomId doc).snapshots.map (fun s => s.id)).Nodup := by
  unfold dbAfterInsert
  rw [List.map_append, List.nodup_append]
  refine ⟨hids, List.nodup_singleton _, ?_⟩
  intro a ha hb
  obtain ⟨s, hs, rfl⟩ := List.mem_map.mp ha
  have hb2 : s.id = (savedRow db roomId doc).id := by
    simpa using hb
  have := hlt s hs
  rw [hb2] at this
  exact absurd this (lt_irrefl _)

/-- Nodup ids restricted to one room's rows of the version-desc sort. -/
theorem nodup_ids_sorted (db1 : Db) (roomId : String)
    (hnd : (db1.snapshots.map (fun s => s.id)).Nodup) :
    ((db1.snapshotsByVersionDesc roomId).map (fun s => s.id)).Nodup := by
  have hsub : List.Sublist ((db1.roomSnapshots roomId).map (fun s => s.id))
      (db1.snapshots.map (fun s => s.id)) :=
    List.Sublist.map _ (List.filter_sublist _)
  have hroom : ((db1.roomSnapshots roomId).map (fun s => s.id)).Nodup :=
    List.Nodup.sublist hsub hnd
  exact (((perm_snapshotsByVersionDesc db1 roomId).map
    (fun s => s.id)).nodup_iff).mpr hroom

/-- C4: a snapshot save assigns the new row the version `max(existing)+1`
(`1` when the room has no snapshot yet) — strictly above every existing
version, so per-room versions strictly increase across saves and the
pre-save newest version is the maximum of the existing ones; after the
pruning step at most 10 rows remain for the room, the new row among them,
and every retained row's version is at least every pruned row's. -/
theorem C4_snapshot_versions (ym : YjsManager) (roomId : String) (db : Db)
    (doc : YDoc) (hdoc : mget ym.documents roomId = some doc)
    (hids : (db.snapshots.map (fun s => s.id)).Nodup)
    (hlt : ∀ s ∈ db.snapshots, s.id < db.nextSnapshotId) :
    (∀ s ∈ db.roomSnapshots roomId,
        s.version
          < ((db.newestSnapshot roomId).map (fun t => t.version)).getD 0 + 1)
      ∧ (db.roomSnapshots roomId = [] →
          ((db.newestSnapshot roomId).map (fun t => t.version)).getD 0 + 1 = 1)
      ∧ (∀ m, db.newestSnapshot roomId = some m →
          m ∈ db.roomSnapshots roomId
            ∧ ((db.newestSnapshot roomId).map (fun t => t.version)).getD 0
                = m.version)
      ∧ (∃ s ∈ (ym.saveSnapshot roomId db).roomSnapshots roomId,
          s.version
              = ((db.newestSnapshot roomId).map (fun t => t.version)).getD 0 + 1
            ∧ s.snapshotData = Y.encodeStateAsUpdate doc)
      ∧ ((ym.saveSnapshot roomId db).roomSnapshots roomId).length
          = min ((db.roomSnapshots roomId).length + 1) 10
      ∧ (∀ s ∈ (ym.saveSnapshot roomId db).roomSnapshots roomId,
          ∀ t ∈ db.roomSnapshots roomId,
            t ∉ (ym.saveSnapshot roomId db).roomSnapshots roomId →
              t.version ≤ s.version) := by
  have hverlt : ∀ s ∈ db.roomSnapshots roomId,
      s.version
        < ((db.newestSnapshot roomId).map (fun t => t.version)).getD 0 + 1 :=
    fun s hs => Nat.lt_succ_of_le (version_le_newest db roomId s hs)
  have hempty : db.roomSnapshots roomId = [] →
      ((db.newestSnapshot roomId).map (fun t => t.version)).getD 0 + 1 = 1 := by
    intro h
    have hs : db.snapshotsByVersionDesc roomId = [] := by
      unfold Db.snapshotsByVersionDesc
      rw [h]
      rfl
    unfold Db.newestSnapshot
    rw [hs]
    rfl
  have hmax : ∀ m, db.newestSnapshot roomId = some m →
      m ∈ db.roomSnapshots roomId
        ∧ ((db.newestSnapshot roomId).map (fun t => t.version)).getD 0
            = m.version := by
    intro m hm
    refine ⟨newestSnapshot_mem db roomId m hm, ?_⟩
    rw [hm]
    rfl
  have hnd1 := nodup_ids_after_insert db roomId doc hids hlt
  have hndsrt := nodup_ids_sorted (dbAfterInsert db roomId doc) roomId hnd1
  have hperm1 := perm_snapshotsByVersionDesc (dbAfterInsert db roomId doc)
    roomId
  have hsorted1 := sorted_snapshotsByVersionDesc (dbAfterInsert db roomId doc)
    roomId
  have hrows1 := roomSnapshots_dbAfterInsert db roomId doc
  have hrowver : (savedRow db roomId doc).version
      = ((db.newestSnapshot roomId).map (fun t => t.version)).getD 0 + 1 := rfl
  have hlensrt : ((dbAfterInsert db roomId doc).snapshotsByVersionDesc
      roomId).length = (db.roomSnapshots roomId).length + 1 := by
    rw [hperm1.length_eq, hrows1, List.length_append, List.length_singleton]
  have hmaster :
      (∃ s ∈ (ym.saveSnapshot roomId db).roomSnapshots roomId,
          s.version
              = ((db.newestSnapshot roomId).map (fun t => t.version)).getD 0 + 1
            ∧ s.snapshotData = Y.encodeStateAsUpdate doc)
        ∧ ((ym.saveSnapshot roomId db).roomSnapshots roomId).length
            = min ((db.roomSnapshots roomId).length + 1) 10
        ∧ (∀ s ∈ (ym.saveSnapshot roomId db).roomSnapshots roomId,
            ∀ t ∈ db.roomSnapshots roomId,
              t ∉ (ym.saveSnapshot roomId db).roomSnapshots roomId →
                t.version ≤ s.version) := by
    rw [saveSnapshot_eq ym roomId db doc hdoc]
    by_cases hold : ((dbAfterInsert db roomId doc).snapshotsByVersionDesc
        roomId).drop 10 = []
    · rw [if_pos hold]
      have hle10 : (db.roomSnapshots roomId).length + 1 ≤ 10 := by
        have := List.drop_eq_nil_iff_le.mp hold
        rw [hlensrt] at this
        exact this
      refine ⟨⟨savedRow db roomId doc, ?_, rfl, rfl⟩, ?_, ?_⟩
      · rw [hrows1]
        exact List.mem_append_right _ (List.mem_singleton_self _)
      · rw [hrows1, List.length_append, List.length_singleton,
          Nat.min_eq_left hle10]
      · intro s _ t ht hnot
        exact absurd (by rw [hrows1]; exact List.mem_append_left _ ht) hnot
    · rw [if_neg hold]
      have hpw : ∀ x ∈ ((dbAfterInsert db roomId doc).snapshotsByVersionDesc
          roomId).take 10,
          ∀ y ∈ ((dbAfterInsert db roomId doc).snapshotsByVersionDesc
            roomId).drop 10, versionGe x y := by
        have hs : List.Pairwise versionGe
            ((dbAfterInsert db roomId doc).snapshotsByVersionDesc roomId) :=
          hsorted1
        rw [← List.take_append_drop 10
          ((dbAfterInsert db roomId doc).snapshotsByVersionDesc roomId)] at hs
        exact (List.pairwise_append.mp hs).2.2
      have hkept : List.Perm
          (({ dbAfterInsert db roomId doc with
              snapshots := (dbAfterInsert db roomId doc).snapshots.filter
                (fun r => decide (r.id ∉
                  (((dbAfterInsert db roomId doc).snapshotsByVersionDesc
                    roomId).drop 10).map (fun s => s.id))) } :
            Db).roomSnapshots roomId)
          (((dbAfterInsert db roomId doc).snapshotsByVersionDesc
            roomId).take 10) := by
        show List.Perm
          (((dbAfterInsert db roomId doc).snapshots.filter
            (fun r => decide (r.id ∉
              (((dbAfterInsert db roomId doc).snapshotsByVersionDesc
                roomId).drop 10).map (fun s => s.id)))).filter
            (fun s => s.roomId == roomId)) _
        rw [List.filter_comm]
        have h2 := List.Perm.filter
          (fun r => decide (r.id ∉
            (((dbAfterInsert db roomId doc).snapshotsByVersionDesc
              roomId).drop 10).map (fun s => s.id))) hperm1.symm
        rw [filter_not_in_drop _ 10 hndsrt] at h2
        exact h2
      have hrowmem1 : savedRow db roomId doc
          ∈ (dbAfterInsert db roomId doc).snapshotsByVersionDesc roomId :=
        hperm1.symm.subset
          (by rw [hrows1]
              exact List.mem_append_right _ (List.mem_singleton_self _))
      have hsplit : savedRow db roomId doc
          ∈ ((dbAfterInsert db roomId doc).snapshotsByVersionDesc
              roomId).take 10
          ∨ savedRow db roomId doc
            ∈ ((dbAfterInsert db roomId doc).snapshotsByVersionDesc
                roomId).drop 10 := by
        rw [← List.mem_append, List.take_append_drop]
        exact hrowmem1
      have hrowtake : savedRow db roomId doc
          ∈ ((dbAfterInsert db roomId doc).snapshotsByVersionDesc
              roomId).take 10 := by
        rcases hsplit with h | h
        · exact h
        · exfalso
          have hlen : 10 < ((dbAfterInsert db roomId
              doc).snapshotsByVersionDesc roomId).length := by
            rcases Nat.lt_or_ge 10 ((dbAfterInsert db roomId
                doc).snapshotsByVersionDesc roomId).length with hx | hx
            · exact hx
            · exact absurd (List.drop_eq_nil_of_le hx) hold
          have htkne : ((dbAfterInsert db roomId doc).snapshotsByVersionDesc
              roomId).take 10 ≠ [] := by
            intro hnil
            have hh := congrArg List.length hnil
            rw [List.length_take, List.length_nil,
              Nat.min_eq_left (Nat.le_of_lt hlen)] at hh
            omega
          obtain ⟨t, ht⟩ := List.exists_mem_of_ne_nil _ htkne
          have hge := hpw t ht _ h
          have htmem : t ∈ (dbAfterInsert db roomId doc).roomSnapshots
              roomId := hperm1.subset (List.take_subset _ _ ht)
          rw [hrows1] at htmem
          rcases List.mem_append.mp htmem with htold | htnew
          · have hlt2 := hverlt t htold
            have hge2 : (savedRow db roomId doc).version ≤ t.version := hge
            rw [hrowver] at hge2
            omega
          · have heq := List.mem_singleton.mp htnew
            subst heq
            have hmapsplit : ((dbAfterInsert db roomId
                doc).snapshotsByVersionDesc roomId).map (fun s => s.id)
                  = (((dbAfterInsert db roomId doc).snapshotsByVersionDesc
                      roomId).take 10).map (fun s => s.id)
                    ++ (((dbAfterInsert db roomId
                      doc).snapshotsByVersionDesc roomId).drop 10).map
                        (fun s => s.id) := by
              rw [← List.map_append, List.take_append_drop]
            have hnd2 := hndsrt
            rw [hmapsplit] at hnd2
            exact (List.nodup_append.mp hnd2).2.2
              (List.mem_map_of_mem _ ht) (List.mem_map_of_mem _ h)
      refine ⟨⟨savedRow db roomId doc, hkept.symm.subset hrowtake, rfl, rfl⟩,
        ?_, ?_⟩
      · rw [hkept.length_eq, List.length_take, hlensrt, Nat.min_comm]
      · intro s hs t ht hnot
        have hstake := hkept.subset hs
        have htmem1 : t ∈ (dbAfterInsert db roomId doc).snapshotsByVersionDesc
            roomId :=
          hperm1.symm.subset (by rw [hrows1]; exact List.mem_append_left _ ht)
        have htsplit : t ∈ ((dbAfterInsert db roomId
            doc).snapshotsByVersionDesc roomId).take 10
            ∨ t ∈ ((dbAfterInsert db roomId doc).snapshotsByVersionDesc
                roomId).drop 10 := by
          rw [← List.mem_append, List.take_append_drop]
          exact htmem1
        rcases htsplit with h | h
        · exact absurd (hkept.symm.subset h) hnot
        · exact hpw s hstake t h
  exact ⟨hverlt, hempty, hmax, hmaster.1, hmaster.2.1, hmaster.2.2⟩

/-- C4 witness: a save against a room with two existing snapshots. -/
theorem C4_witness :
    (∀ s ∈ dbEx.roomSnapshots "R",
        s.version
          < ((dbEx.newestSnapshot "R").map (fun t => t.version)).getD 0 + 1)
      ∧ (dbEx.roomSnapshots "R" = [] →
          ((dbEx.newestSnapshot "R").map (fun t => t.version)).getD 0 + 1 = 1)
      ∧ (∀ m, dbEx.newestSnapshot "R" = some m →
          m ∈ dbEx.roomSnapshots "R"
            ∧ ((dbEx.newestSnapshot "R").map (fun t => t.version)).getD 0
                = m.version)
      ∧ (∃ s ∈ (ymEx.saveSnapshot "R" dbEx).roomSnapshots "R",
          s.version
              = ((dbEx.newestSnapshot "R").map (fun t => t.version)).getD 0 + 1
            ∧ s.snapshotData = Y.encodeStateAsUpdate [1, 2])
      ∧ ((ymEx.saveSnapshot "R" dbEx).roomSnapshots "R").length
          = min ((dbEx.roomSnapshots "R").length + 1) 10
      ∧ (∀ s ∈ (ymEx.saveSnapshot "R" dbEx).roomSnapshots "R",
          ∀ t ∈ dbEx.roomSnapshots "R",
            t ∉ (ymEx.saveSnapshot "R" dbEx).roomSnapshots "R" →
              t.version ≤ s.version) :=
  C4_snapshot_versions ymEx "R" dbEx [1, 2] rfl (by decide) (by decide)

/-- The snapshot row inserted by `saveSnapshot` survives its own pruning
step: it carries the room's highest version, so it is among the 10 newest. -/
theorem saveSnapshot_new_row (ym : YjsManager) (roomId : String) (db : Db)
    (doc : YDoc) (hdoc : mget ym.documents roomId = some doc)
    (hids : (db.snapshots.map (fun s => s.id)).Nodup)
    (hlt : ∀ s ∈ db.snapshots, s.id < db.nextSnapshotId) :
    ∃ s ∈ (ym.saveSnapshot roomId db).roomSnapshots roomId,
      s.version
          = ((db.newestSnapshot roomId).map (fun t => t.version)).getD 0 + 1
        ∧ s.snapshotData = Y.encodeStateAsUpdate doc := by
  have hverlt : ∀ s ∈ db.roomSnapshots roomId,
      s.version
        < ((db.newestSnapshot roomId).map (fun t => t.version)).getD 0 + 1 :=
    fun s hs => Nat.lt_succ_of_le (version_le_newest db roomId s hs)
  have hnd1 := nodup_ids_after_insert db roomId doc hids hlt
  have hndsrt := nodup_ids_sorted (dbAfterInsert db roomId doc) roomId hnd1
  have hperm1 := perm_snapshotsByVersionDesc (dbAfterInsert db roomId doc)
    roomId
  have hsorted1 := sorted_snapshotsByVersionDesc (dbAfterInsert db roomId doc)
    roomId
  have hrows1 := roomSnapshots_dbAfterInsert db roomId doc
  have hrowver : (savedRow db roomId doc).version
      = ((db.newestSnapshot roomId).map (fun t => t.version)).getD 0 + 1 := rfl
  rw [saveSnapshot_eq ym roomId db doc hdoc]
  by_cases hold : ((dbAfterInsert db roomId doc).snapshotsByVersionDesc
      roomId).drop 10 = []
  · rw [if_pos hold]
    refine ⟨savedRow db roomId doc, ?_, rfl, rfl⟩
    rw [hrows1]
    exact List.mem_append_right _ (List.mem_singleton_self _)
  · rw [if_neg hold]
    have hpw : ∀ x ∈ ((dbAfterInsert db roomId doc).snapshotsByVersionDesc
        roomId).take 10,
        ∀ y ∈ ((dbAfterInsert db roomId doc).snapshotsByVersionDesc
          roomId).drop 10, versionGe x y := by
      have hs : List.Pairwise versionGe
          ((dbAfterInsert db roomId doc).snapshotsByVersionDesc roomId) :=
        hsorted1
      rw [← List.take_append_drop 10
        ((dbAfterInsert db roomId doc).snapshotsByVersionDesc roomId)] at hs
      exact (List.pairwise_append.mp hs).2.2
    have hkept : List.Perm
        (({ dbAfterInsert db roomId doc with
            snapshots := (dbAfterInsert db roomId doc).snapshots.filter
              (fun r => decide (r.id ∉
                (((dbAfterInsert db roomId doc).snapshotsByVersionDesc
                  roomId).drop 10).map (fun s => s.id))) } :
          Db).roomSnapshots roomId)
        (((dbAfterInsert db roomId doc).snapshotsByVersionDesc
          roomId).take 10) := by
      show List.Perm
        (((dbAfterInsert db roomId doc).snapshots.filter
          (fun r => decide (r.id ∉
            (((dbAfterInsert db roomId doc).snapshotsByVersionDesc
              roomId).drop 10).map (fun s => s.id)))).filter
          (fun s => s.roomId == roomId)) _
      rw [List.filter_comm]
      have h2 := List.Perm.filter
        (fun r => decide (r.id ∉
          (((dbAfterInsert db roomId doc).snapshotsByVersionDesc
            roomId).drop 10).map (fun s => s.id))) hperm1.symm
      rw [filter_not_in_drop _ 10 hndsrt] at h2
      exact h2
    have hrowmem1 : savedRow db roomId doc
        ∈ (dbAfterInsert db roomId doc).snapshotsByVersionDesc roomId :=
      hperm1.symm.subset
        (by rw [hrows1]
            exact List.mem_append_right _ (List.mem_singleton_self _))
    have hsplit : savedRow db roomId doc
        ∈ ((dbAfterInsert db roomId doc).snapshotsByVersionDesc
            roomId).take 10
        ∨ savedRow db roomId doc
          ∈ ((dbAfterInsert db roomId doc).snapshotsByVersionDesc
              roomId).drop 10 := by
      rw [← List.mem_append, List.take_append_drop]
      exact hrowmem1
    have hrowtake : savedRow db roomId doc
        ∈ ((dbAfterInsert db roomId doc).snapshotsByVersionDesc
            roomId).take 10 := by
      rcases hsplit with h | h
      · exact h
      · exfalso
        have hlen : 10 < ((dbAfterInsert db roomId
            doc).snapshotsByVersionDesc roomId).length := by
          rcases Nat.lt_or_ge 10 ((dbAfterInsert db roomId
              doc).snapshotsByVersionDesc roomId).length with hx | hx
          · exact hx
          · exact absurd (List.drop_eq_nil_of_le hx) hold
        have htkne : ((dbAfterInsert db roomId doc).snapshotsByVersionDesc
            roomId).take 10 ≠ [] := by
          intro hnil
          have hh := congrArg List.length hnil
          rw [List.length_take, List.length_nil,
            Nat.min_eq_left (Nat.le_of_lt hlen)] at hh
          omega
        obtain ⟨t, ht⟩ := List.exists_mem_of_ne_nil _ htkne
        have hge := hpw t ht _ h
        have htmem : t ∈ (dbAfterInsert db roomId doc).roomSnapshots
            roomId := hperm1.subset (List.take_subset _ _ ht)
        rw [hrows1] at htmem
        rcases List.mem_append.mp htmem with htold | htnew
        · have hlt2 := hverlt t htold
          have hge2 : (savedRow db roomId doc).version ≤ t.version := hge
          rw [hrowver] at hge2
          omega
        · have heq := List.mem_singleton.mp htnew
          subst heq
          have hmapsplit : ((dbAfterInsert db roomId
              doc).snapshotsByVersionDesc roomId).map (fun s => s.id)
                = (((dbAfterInsert db roomId doc).snapshotsByVersionDesc
                    roomId).take 10).map (fun s => s.id)
                  ++ (((dbAfterInsert db roomId
                    doc).snapshotsByVersionDesc roomId).drop 10).map
                      (fun s => s.id) := by
            rw [← List.map_append, List.take_append_drop]
          have hnd2 := hndsrt
          rw [hmapsplit] at hnd2
          exact (List.nodup_append.mp hnd2).2.2
            (List.mem_map_of_mem _ ht) (List.mem_map_of_mem _ h)
    exact ⟨savedRow db roomId doc, hkept.symm.subset hrowtake, rfl, rfl⟩

/-- C5 counterexample: after the only member of `R1` disconnects, the
room's bucket is gone (`attached_count = 0`), a final snapshot was saved,
but the document is still cached and no destruction is scheduled — the
`setTimeout` that would destroy it is commented out — refuting
`attached_count(R) = 0 ⇒ (destroy scheduled ∨ already destroyed)`. -/
theorem C5_counterexample :
    bucketOf (handleDisconnect "cA" 2 stA).1.cm "R1" = []
      ∧ mget (handleDisconnect "cA" 2 stA).1.ym.documents "R1" = some []
      ∧ (handleDisconnect "cA" 2 stA).1.pendingDestroys = [] := by
  decide

/-- C5 (amended): whenever the last attached session of room `R`
disconnects, the server saves a final snapshot of `R`'s document (with the
next version number), but the document is neither destroyed nor scheduled
for destruction: the document cache, its save timers and the pending
destroy set are all left untouched, so the document stays in memory
indefinitely. -/
theorem C5_final_save_no_destroy (clientId : String) (now : Nat)
    (st : ServerState) (conn : ClientConnection) (doc : YDoc)
    (hconn : mget st.cm.connections clientId = some conn)
    (hlast : mget st.cm.roomClients conn.roomId = some [clientId])
    (hdoc : mget st.ym.documents conn.roomId = some doc)
    (hids : (st.db.snapshots.map (fun s => s.id)).Nodup)
    (hlt : ∀ s ∈ st.db.snapshots, s.id < st.db.nextSnapshotId) :
    (∃ s ∈ (handleDisconnect clientId now st).1.db.roomSnapshots conn.roomId,
        s.version
            = ((st.db.newestSnapshot conn.roomId).map
                (fun t => t.version)).getD 0 + 1
          ∧ s.snapshotData = Y.encodeStateAsUpdate doc)
      ∧ (handleDisconnect clientId now st).1.ym = st.ym
      ∧ (handleDisconnect clientId now st).1.pendingDestroys
          = st.pendingDestroys := by
  have hserase : serase [clientId] clientId = [] := by
    simp [serase]
  have hstep : handleDisconnect clientId now st
      = ({ st with
            cm := ⟨mdel st.cm.connections clientId,
              mdel st.cm.roomClients conn.roomId⟩,
            db := st.ym.saveSnapshot conn.roomId
              (st.db.recordLeave clientId now) },
          (⟨mdel st.cm.connections clientId,
            mdel st.cm.roomClients conn.roomId⟩ :
              ConnectionManager).broadcastToRoom conn.roomId
            (ServerMessage.leave clientId conn.user.id) none) := by
    simp only [handleDisconnect, ConnectionManager.removeConnection, hconn,
      hlast, hserase, if_pos, ConnectionManager.isRoomEmpty,
      ConnectionManager.getRoomClientCount, mget_mdel_self, Option.getD_none,
      List.length_nil]
    rfl
  rw [hstep]
  refine ⟨?_, rfl, rfl⟩
  have hsnaps : (st.db.recordLeave clientId now).snapshots
      = st.db.snapshots := rfl
  have hnewest : (st.db.recordLeave clientId now).newestSnapshot conn.roomId
      = st.db.newestSnapshot conn.roomId :=
    newestSnapshot_congr _ _ conn.roomId hsnaps
  have h := saveSnapshot_new_row st.ym conn.roomId
    (st.db.recordLeave clientId now) doc hdoc
    (by rw [hsnaps]; exact hids) (by rw [hsnaps]; exact hlt)
  rw [hnewest] at h
  exact h

/-- C5 witness: A, alone in `R1`, disconnects. -/
theorem C5_witness :
    (∃ s ∈ (handleDisconnect "cA" 5 stA).1.db.roomSnapshots "R1",
        s.version
            = ((stA.db.newestSnapshot "R1").map
                (fun t => t.version)).getD 0 + 1
          ∧ s.snapshotData = Y.encodeStateAsUpdate [])
      ∧ (handleDisconnect "cA" 5 stA).1.ym = stA.ym
      ∧ (handleDisconnect "cA" 5 stA).1.pendingDestroys
          = stA.pendingDestroys :=
  C5_final_save_no_destroy "cA" 5 stA ⟨true, "R1", userA, 0⟩ []
    (by decide) (by decide) (by decide) (by decide) (by decide)

/-- C6 witness: the second connect of `cA` to `R1`. -/
theorem C6_witness :
    (handleConnect "cA" true "R1" userA 3 stA).1.db.participants
        = stA.db.participants ++
            [⟨"R1", userA.id, "cA", userA.name, userA.color, "editor", 3,
              none⟩]
      ∧ mget (handleConnect "cA" true "R1" userA 3 stA).1.cm.connections "cA"
          = some ⟨true, "R1", userA, 3⟩
      ∧ ∀ p ∈ (handleConnect "cA" true "R1" userA 3 stA).2,
          ∀ code msgtext, p.2 ≠ ServerMessage.error code msgtext :=
  C6_reconnect_processed "cA" "R1" userA 3 stA ⟨true, "R1", userA, 0⟩
    (by decide)

end Scrible
